import Mathlib

/-!
# Verification of `FieldMetaInformation` (openPMD-viewer, `field_metainfo.py`)

A shallow embedding of the `FieldMetaInformation` class from
`openpmd_viewer/openpmd_timeseries/field_metainfo.py`.

The Python class stores its data as dynamically named object attributes
(`setattr`/`getattr`/`delattr` with attribute names computed from axis
labels at runtime).  We model a Python object as an association list from
attribute names (strings) to values, and each method as a function on that
state.  Python floats are modelled as rationals (`ℚ`), numpy integer arrays
as lists of `ℤ`.  A raised Python exception is modelled by `Except.error`;
for the in-place mutating methods the error also carries the object state
at the moment the exception is raised, so that claims about partial
mutation on failure paths can be stated.
-/

namespace FieldMetaInfo

/-- The kinds of Python exceptions that the code under analysis can raise.
`openPMDException` is the domain-specific `OpenPMDException` class defined in
`field_metainfo.py`; the others are Python builtins. -/
inductive PyError where
  | openPMDException (msg : String)
  | valueError (msg : String)
  | typeError (msg : String)
  | attributeError (name : String)
  | indexError
  | keyError
  deriving Repr, DecidableEq

/-- A Python value stored in an object attribute, restricted to the kinds of
values the class under analysis actually stores: float scalars, int scalars,
non-negative index scalars (results of `argmin`), numpy 1-d float arrays,
numpy 1-d integer arrays, and the `axes` dictionary `{int: str}`. -/
inductive Value where
  | num (q : ℚ)
  | int (z : ℤ)
  | idx (n : ℕ)
  | arr (xs : List ℚ)
  | iarr (zs : List ℤ)
  | axesDict (d : List (ℕ × String))
  deriving Repr, DecidableEq

/-- Look up an attribute in an attribute list (first match, like a dict). -/
def getAttrList (n : String) : List (String × Value) → Option Value
  | [] => none
  | p :: ps => if p.1 = n then some p.2 else getAttrList n ps

/-- Set an attribute: replace an existing binding in place, else append
(matching Python dict update/insert semantics). -/
def setAttrList (n : String) (v : Value) : List (String × Value) → List (String × Value)
  | [] => [(n, v)]
  | p :: ps => if p.1 = n then (n, v) :: ps else p :: setAttrList n v ps

/-- Delete an attribute binding. -/
def delAttrList (n : String) : List (String × Value) → List (String × Value)
  | [] => []
  | p :: ps => if p.1 = n then delAttrList n ps else p :: delAttrList n ps

/-- A Python object: its `__dict__` of attributes. -/
structure Obj where
  attrs : List (String × Value)
  deriving Repr, DecidableEq

def getattr? (o : Obj) (n : String) : Option Value := getAttrList n o.attrs

def hasattr (o : Obj) (n : String) : Bool := (getattr? o n).isSome

def setattr (o : Obj) (n : String) (v : Value) : Obj := ⟨setAttrList n v o.attrs⟩

/-- The state after a successful `delattr` (the caller checks presence). -/
def delattrPure (o : Obj) (n : String) : Obj := ⟨delAttrList n o.attrs⟩

theorem getAttrList_setAttrList (n m : String) (v : Value) :
    ∀ l : List (String × Value),
      getAttrList m (setAttrList n v l) = if m = n then some v else getAttrList m l := by
  intro l
  induction l with
  | nil =>
      by_cases h : m = n
      · subst h; simp [setAttrList, getAttrList]
      · simp [setAttrList, getAttrList, h, Ne.symm h]
  | cons p ps ih =>
      by_cases hp : p.1 = n
      · by_cases hm : m = n
        · subst hm
          simp [setAttrList, getAttrList, hp]
        · have hpm : ¬ p.1 = m := fun he => hm (by rw [← he, hp])
          simp [setAttrList, getAttrList, hp, hm, Ne.symm hm, hpm, ih]
      · by_cases hq : p.1 = m
        · have hm : ¬ m = n := fun he => hp (by rw [hq, he])
          simp [setAttrList, getAttrList, hp, hq, hm, ih]
        · simp [setAttrList, getAttrList, hp, hq, ih]

theorem getAttrList_delAttrList (n m : String) :
    ∀ l : List (String × Value),
      getAttrList m (delAttrList n l) = if m = n then none else getAttrList m l := by
  intro l
  induction l with
  | nil =>
      by_cases h : m = n <;> simp [delAttrList, getAttrList, h]
  | cons p ps ih =>
      by_cases hp : p.1 = n
      · by_cases hm : m = n
        · subst hm
          simp [delAttrList, getAttrList, hp, ih]
        · have hpm : ¬ p.1 = m := fun he => hm (by rw [← he, hp])
          simp [delAttrList, getAttrList, hp, hm, Ne.symm hm, hpm, ih]
      · by_cases hq : p.1 = m
        · have hm : ¬ m = n := fun he => hp (by rw [hq, he])
          simp [delAttrList, getAttrList, hp, hq, hm]
        · simp [delAttrList, getAttrList, hp, hq, ih]

@[simp] theorem getattr?_setattr (o : Obj) (n m : String) (v : Value) :
    getattr? (setattr o n v) m = if m = n then some v else getattr? o m := by
  simp [getattr?, setattr, getAttrList_setAttrList]

@[simp] theorem getattr?_delattrPure (o : Obj) (n m : String) :
    getattr? (delattrPure o n) m = if m = n then none else getattr? o m := by
  simp [getattr?, delattrPure, getAttrList_delAttrList]

/-! ## numpy helpers -/

/-- `np.linspace(start, stop, n, endpoint=True)`, in exact arithmetic. -/
def npLinspace (start stop : ℚ) (n : ℕ) : List ℚ :=
  if n = 1 then [start]
  else (List.range n).map
    (fun i : ℕ => start + (i : ℚ) * ((stop - start) / ((n : ℚ) - 1)))

/-- Minimum of a list (`ndarray.min()`); junk default on the empty list. -/
def npMin {α : Type} [LinearOrder α] [Inhabited α] : List α → α
  | [] => default
  | x :: xs => xs.foldl min x

/-- Maximum of a list (`ndarray.max()`); junk default on the empty list. -/
def npMax {α : Type} [LinearOrder α] [Inhabited α] : List α → α
  | [] => default
  | x :: xs => xs.foldl max x

/-- Index of the first element satisfying `p` (length of the list if none). -/
def firstIdx {α : Type} (p : α → Bool) : List α → ℕ
  | [] => 0
  | x :: xs => if p x then 0 else firstIdx p xs + 1

/-- `np.argmin`: the index of the first occurrence of the minimum value. -/
def npArgmin {α : Type} [LinearOrder α] [Inhabited α] [DecidableEq α]
    (xs : List α) : ℕ :=
  firstIdx (fun x => decide (x = npMin xs)) xs

section MinLemmas

variable {α : Type} [LinearOrder α] [Inhabited α]

theorem foldl_min_le_init : ∀ (xs : List α) (x : α), xs.foldl min x ≤ x := by
  intro xs
  induction xs with
  | nil => intro x; simp [List.foldl]
  | cons y ys ih =>
      intro x
      simp only [List.foldl]
      exact le_trans (ih (min x y)) (min_le_left x y)

theorem foldl_min_le_mem : ∀ (xs : List α) (x y : α), y ∈ xs → xs.foldl min x ≤ y := by
  intro xs
  induction xs with
  | nil => intro x y h; cases h
  | cons z zs ih =>
      intro x y h
      simp only [List.foldl]
      rcases List.mem_cons.mp h with rfl | h2
      · exact le_trans (foldl_min_le_init zs (min x y)) (min_le_right x y)
      · exact ih (min x z) y h2

theorem foldl_min_mem : ∀ (xs : List α) (x : α), xs.foldl min x = x ∨ xs.foldl min x ∈ xs := by
  intro xs
  induction xs with
  | nil => intro x; left; rfl
  | cons z zs ih =>
      intro x
      simp only [List.foldl]
      rcases ih (min x z) with h | h
      · rcases min_cases x z with ⟨he, _⟩ | ⟨he, _⟩
        · left; rw [h, he]
        · right; rw [h, he]; exact List.mem_cons_self z zs
      · right; exact List.mem_cons_of_mem z h

theorem npMin_le {xs : List α} {y : α} (h : y ∈ xs) : npMin xs ≤ y := by
  cases xs with
  | nil => cases h
  | cons x rest =>
      simp only [npMin]
      rcases List.mem_cons.mp h with h1 | h2
      · exact h1 ▸ foldl_min_le_init rest x
      · exact foldl_min_le_mem rest x y h2

theorem npMin_mem {xs : List α} (h : xs ≠ []) : npMin xs ∈ xs := by
  cases xs with
  | nil => exact absurd rfl h
  | cons x rest =>
      simp only [npMin]
      rcases foldl_min_mem rest x with h1 | h1
      · rw [h1]; exact List.mem_cons_self x rest
      · exact List.mem_cons_of_mem x h1

theorem foldl_max_le_init : ∀ (xs : List α) (x : α), x ≤ xs.foldl max x := by
  intro xs
  induction xs with
  | nil => intro x; simp [List.foldl]
  | cons y ys ih =>
      intro x
      simp only [List.foldl]
      exact le_trans (le_max_left x y) (ih (max x y))

theorem foldl_max_le_mem : ∀ (xs : List α) (x y : α), y ∈ xs → y ≤ xs.foldl max x := by
  intro xs
  induction xs with
  | nil => intro x y h; cases h
  | cons z zs ih =>
      intro x y h
      simp only [List.foldl]
      rcases List.mem_cons.mp h with rfl | h2
      · exact le_trans (le_max_right x y) (foldl_max_le_init zs (max x y))
      · exact ih (max x z) y h2

theorem npMax_le {xs : List α} {y : α} (h : y ∈ xs) : y ≤ npMax xs := by
  cases xs with
  | nil => cases h
  | cons x rest =>
      simp only [npMax]
      rcases List.mem_cons.mp h with h1 | h2
      · exact h1 ▸ foldl_max_le_init rest x
      · exact foldl_max_le_mem rest x y h2

theorem npMin_le_npMax {xs : List α} (h : xs ≠ []) : npMin xs ≤ npMax xs := by
  cases xs with
  | nil => exact absurd rfl h
  | cons x rest =>
      exact le_trans (npMin_le (List.mem_cons_self x rest))
        (npMax_le (List.mem_cons_self x rest))

end MinLemmas

section FirstIdxLemmas

variable {α : Type}

theorem firstIdx_lt_length {p : α → Bool} :
    ∀ {xs : List α}, (∃ a ∈ xs, p a = true) → firstIdx p xs < xs.length := by
  intro xs
  induction xs with
  | nil => rintro ⟨a, ha, _⟩; cases ha
  | cons x rest ih =>
      rintro ⟨a, ha, hp⟩
      simp only [firstIdx]
      by_cases hx : p x
      · simp [hx, List.length_cons, Nat.succ_pos]
      · rcases List.mem_cons.mp ha with h1 | h2
        · exact absurd (h1 ▸ hp) (by simp [hx])
        · simp only [if_neg hx, List.length_cons]
          exact Nat.succ_lt_succ (ih ⟨a, h2, hp⟩)

theorem firstIdx_get {p : α → Bool} :
    ∀ {xs : List α} (h : firstIdx p xs < xs.length),
      p (xs.get ⟨firstIdx p xs, h⟩) = true := by
  intro xs
  induction xs with
  | nil => intro h; simp [firstIdx] at h
  | cons x rest ih =>
      intro h
      by_cases hx : p x
      · simp [firstIdx, hx]
      · have he : firstIdx p (x :: rest) = firstIdx p rest + 1 := by
          simp [firstIdx, hx]
        have h2 : firstIdx p rest < rest.length := by
          have := he ▸ h
          simpa [List.length_cons, Nat.succ_lt_succ_iff] using this
        have := ih h2
        simp only [he]
        simpa [List.get_cons_succ] using this

theorem firstIdx_before {p : α → Bool} :
    ∀ {xs : List α} {k : ℕ} (hk : k < xs.length), k < firstIdx p xs →
      p (xs.get ⟨k, hk⟩) = false := by
  intro xs
  induction xs with
  | nil => intro k hk _; simp at hk
  | cons x rest ih =>
      intro k hk hlt
      by_cases hx : p x
      · simp [firstIdx, hx] at hlt
      · have he : firstIdx p (x :: rest) = firstIdx p rest + 1 := by
          simp [firstIdx, hx]
        cases k with
        | zero => simpa using (by simpa using hx : p x = false)
        | succ m =>
            have hm : m < rest.length := by
              simpa [List.length_cons, Nat.succ_lt_succ_iff] using hk
            have hlt2 : m < firstIdx p rest := by
              rw [he] at hlt
              exact Nat.lt_of_succ_lt_succ hlt
            have := ih hm hlt2
            simpa [List.get_cons_succ] using this

theorem firstIdx_eq {p : α → Bool} {xs : List α} {j : ℕ} (hj : j < xs.length)
    (hpj : p (xs.get ⟨j, hj⟩) = true)
    (hbefore : ∀ k (hk : k < j), p (xs.get ⟨k, Nat.lt_trans hk hj⟩) = false) :
    firstIdx p xs = j := by
  have hex : ∃ a ∈ xs, p a = true := ⟨xs.get ⟨j, hj⟩, List.get_mem xs j hj, hpj⟩
  have hlt := firstIdx_lt_length hex
  rcases Nat.lt_trichotomy (firstIdx p xs) j with h | h | h
  · have := hbefore (firstIdx p xs) h
    rw [firstIdx_get hlt] at this
    cases this
  · exact h
  · have := firstIdx_before hj h
    rw [hpj] at this
    cases this

end FirstIdxLemmas

/-! ## Python / numpy primitive operations on stored values -/

/-- Python `a < v` for a float scalar `a` against a stored value, followed by
`if ...:` truthiness.  For a numpy array the comparison is elementwise and the
truth value is only defined for a single-element array. -/
def pyLtQ (a : ℚ) : Value → Except PyError Bool
  | .num q => .ok (decide (a < q))
  | .int z => .ok (decide (a < (z : ℚ)))
  | .idx n => .ok (decide (a < (n : ℚ)))
  | .arr xs =>
      match xs with
      | [q] => .ok (decide (a < q))
      | _ => .error (.valueError "The truth value of an array is ambiguous")
  | .iarr zs =>
      match zs with
      | [z] => .ok (decide (a < (z : ℚ)))
      | _ => .error (.valueError "The truth value of an array is ambiguous")
  | .axesDict _ => .error (.typeError "unorderable types")

/-- Python `a > v`, as `pyLtQ` but with the comparison reversed. -/
def pyGtQ (a : ℚ) : Value → Except PyError Bool
  | .num q => .ok (decide (q < a))
  | .int z => .ok (decide ((z : ℚ) < a))
  | .idx n => .ok (decide ((n : ℚ) < a))
  | .arr xs =>
      match xs with
      | [q] => .ok (decide (q < a))
      | _ => .error (.valueError "The truth value of an array is ambiguous")
  | .iarr zs =>
      match zs with
      | [z] => .ok (decide ((z : ℚ) < a))
      | _ => .error (.valueError "The truth value of an array is ambiguous")
  | .axesDict _ => .error (.typeError "unorderable types")

/-- Python `len(v)`. -/
def pyLen : Value → Except PyError ℕ
  | .arr xs => .ok xs.length
  | .iarr zs => .ok zs.length
  | .axesDict d => .ok d.length
  | _ => .error (.typeError "object has no len")

/-- A stored value as a float array (numpy casts integer arrays). -/
def asQList : Value → Except PyError (List ℚ)
  | .arr xs => .ok xs
  | .iarr zs => .ok (zs.map (fun z => (z : ℚ)))
  | _ => .error (.typeError "expected an array")

/-- A stored value as an integer array. -/
def asZList : Value → Except PyError (List ℤ)
  | .iarr zs => .ok zs
  | _ => .error (.typeError "expected an integer array")

/-- A stored value as a non-negative array index (`self._current_i`). -/
def asIdx : Value → Except PyError ℕ
  | .idx n => .ok n
  | _ => .error .indexError

/-- Python `v[i]` for an array value and a non-negative index. -/
def pyIndex : Value → ℕ → Except PyError Value
  | .arr xs, i =>
      match xs.get? i with
      | some q => .ok (.num q)
      | none => .error .indexError
  | .iarr zs, i =>
      match zs.get? i with
      | some z => .ok (.int z)
      | none => .error .indexError
  | _, _ => .error (.typeError "object is not indexable")

/-- Lookup in the `axes` dictionary `{int: str}` (Python `self.axes[k]`). -/
def dictGet? : List (ℕ × String) → ℕ → Option String
  | [], _ => none
  | p :: ps, k => if p.1 = k then some p.2 else dictGet? ps k

/-- Python list indexing with `IndexError` on overflow. -/
def pyListGetQ (xs : List ℚ) (i : ℕ) : Except PyError ℚ :=
  match xs.get? i with
  | some q => .ok q
  | none => .error .indexError

def pyListGetN (xs : List ℕ) (i : ℕ) : Except PyError ℕ :=
  match xs.get? i with
  | some n => .ok n
  | none => .error .indexError

/-- Insert into an ascending list (used to model Python `sorted`). -/
def insertAsc (n : ℕ) : List ℕ → List ℕ
  | [] => [n]
  | m :: ms => if n ≤ m then n :: m :: ms else m :: insertAsc n ms

/-- Python `sorted(keys)`. -/
def sortAsc (l : List ℕ) : List ℕ := l.foldr insertAsc []

/-- The distinct keys of the association list representing the `axes` dict
(a Python dict holds each key once). -/
def dedupKeys : List ℕ → List ℕ
  | [] => []
  | k :: ks => if k ∈ ks then dedupKeys ks else k :: dedupKeys ks

/-- Python `dict(enumerate(ls))`, as an association list. -/
def enumFromIdx (i : ℕ) : List String → List (ℕ × String)
  | [] => []
  | l :: ls => (i, l) :: enumFromIdx (i + 1) ls

def enumDict (ls : List String) : List (ℕ × String) := enumFromIdx 0 ls

/-! ## The error messages of `field_metainfo.py`, verbatim -/

/-- Message of the `OpenPMDException` raised when both `t` and `iteration`
are supplied to `_find_output`. -/
def bothMsg : String :=
  "Please pass either a time (`t`) \nor an iteration (`iteration`), but not both."

/-- Message of the `OpenPMDException` raised when the requested iteration is
not in the iterations array: the `%` formatting of
`"The requested iteration '%s' is not available.\nThe available iterations
are: \n - %s\n"` with `str(iteration)` and `'\n - '.join(map(str, iterations))`. -/
def iterMissingMsg (itv : ℤ) (its : List ℤ) : String :=
  "The requested iteration '" ++ toString itv ++
    "' is not available.\nThe available iterations are: \n - " ++
    String.intercalate "\n - " (its.map (fun k => toString k)) ++ "\n"

/-- Message of the `ValueError` raised by `restrict_to_1Daxis`. -/
def restrictMsg : String :=
  "`axis` is not one of the coordinates that are present in this object."

/-- Message of the `ValueError` raised by `_convert_cylindrical_to_3Dcartesian`. -/
def convertMsg : String :=
  "_convert_cylindrical_to_3Dcartesian can only be applied to a timeseries in thetaMode geometry"

/-! ## `_find_output`

The errors of the in-place mutating methods below
(`_generate_imshow_extent`, `_remove_axis`, `restrict_to_1Daxis`,
`_convert_cylindrical_to_3Dcartesian`) carry the object state at the moment
the exception is raised.  `_find_output` and `__init__` are modelled with a
plain error (their callers in the claims only observe success or the raised
exception). -/

/-- The tail of `_find_output`: `self.current_t = self.t[self._current_i]`
and `self.current_iteration = self.iterations[self._current_i]`. -/
def registerCurrent (o : Obj) : Except PyError Obj :=
  match getattr? o "_current_i" with
  | none => .error (.attributeError "_current_i")
  | some civ =>
  match asIdx civ with
  | .error e => .error e
  | .ok i =>
  match getattr? o "t" with
  | none => .error (.attributeError "t")
  | some tval =>
  match pyIndex tval i with
  | .error e => .error e
  | .ok x =>
  let o1 := setattr o "current_t" x
  match getattr? o1 "iterations" with
  | none => .error (.attributeError "iterations")
  | some itval =>
  match pyIndex itval i with
  | .error e => .error e
  | .ok y => .ok (setattr o1 "current_iteration" y)

/-- `FieldMetaInformation._find_output(self, t, iteration)`. -/
def findOutput (o : Obj) (t : Option ℚ) (iteration : Option ℤ) : Except PyError Obj :=
  match t, iteration with
  | some _, some _ => .error (.openPMDException bothMsg)
  | some tv, none =>
      match getattr? o "tmin" with
      | none => .error (.attributeError "tmin")
      | some vmin =>
      match pyLtQ tv vmin with
      | .error e => .error e
      | .ok true => registerCurrent (setattr o "_current_i" (.idx 0))
      | .ok false =>
      match getattr? o "tmax" with
      | none => .error (.attributeError "tmax")
      | some vmax =>
      match pyGtQ tv vmax with
      | .error e => .error e
      | .ok true =>
          match getattr? o "t" with
          | none => .error (.attributeError "t")
          | some tval =>
          match pyLen tval with
          | .error e => .error e
          | .ok n => registerCurrent (setattr o "_current_i" (.idx (n - 1)))
      | .ok false =>
          match getattr? o "t" with
          | none => .error (.attributeError "t")
          | some tval =>
          match asQList tval with
          | .error e => .error e
          | .ok xs =>
              registerCurrent (setattr o "_current_i"
                (.idx (npArgmin (xs.map (fun x => |x - tv|)))))
  | none, some itv =>
      match getattr? o "iterations" with
      | none => .error (.attributeError "iterations")
      | some itval =>
      match asZList itval with
      | .error e => .error e
      | .ok its =>
          if itv ∈ its then
            registerCurrent (setattr o "_current_i"
              (.idx (npArgmin (its.map (fun k => |itv - k|)))))
          else
            .error (.openPMDException (iterMissingMsg itv its))
  | none, none => registerCurrent o

/-! ## `_generate_imshow_extent` -/

/-- Attribute read raising `AttributeError` and carrying the current state. -/
def getAttrS (o : Obj) (n : String) : Except (PyError × Obj) Value :=
  match getattr? o n with
  | some v => .ok v
  | none => .error (.attributeError n, o)

/-- Attribute read of a float scalar (the `min`/`max`/spacing attributes). -/
def getNumAttrS (o : Obj) (n : String) : Except (PyError × Obj) ℚ :=
  match getattr? o n with
  | some (.num q) => .ok q
  | some _ => .error (.typeError "expected a scalar", o)
  | none => .error (.attributeError n, o)

/-- `delattr(self, n)`, raising `AttributeError` if the attribute is absent. -/
def delattrS (o : Obj) (n : String) : Except (PyError × Obj) Obj :=
  if hasattr o n then .ok (delattrPure o n) else .error (.attributeError n, o)

/-- `FieldMetaInformation._generate_imshow_extent(self)`. -/
def generateImshowExtent (o : Obj) : Except (PyError × Obj) Obj :=
  match getattr? o "axes" with
  | none => .error (.attributeError "axes", o)
  | some axv =>
  match pyLen axv with
  | .error e => .error (e, o)
  | .ok n =>
  if n = 2 then
    -- `self.imshow_extent = []` precedes the loop, then the loop reads
    -- `self.axes[1]` and `self.axes[0]`; the extent list is re-assigned
    -- after each label is processed
    match axv with
    | .axesDict d =>
      (match dictGet? d 1, dictGet? d 0 with
      | none, _ => .error (.keyError, setattr o "imshow_extent" (.arr []))
      | some _, none => .error (.keyError, setattr o "imshow_extent" (.arr []))
      | some l1, some l0 =>
        match getNumAttrS (setattr o "imshow_extent" (.arr [])) (l1 ++ "min") with
        | .error e => .error e
        | .ok mn1 =>
        match getNumAttrS (setattr o "imshow_extent" (.arr [])) (l1 ++ "max") with
        | .error e => .error e
        | .ok mx1 =>
        match getNumAttrS (setattr o "imshow_extent" (.arr [])) ("d" ++ l1) with
        | .error e => .error e
        | .ok st1 =>
        match getNumAttrS (setattr (setattr o "imshow_extent" (.arr []))
            "imshow_extent" (.arr [mn1 - (1/2 : ℚ) * st1, mx1 + (1/2 : ℚ) * st1]))
            (l0 ++ "min") with
        | .error e => .error e
        | .ok mn0 =>
        match getNumAttrS (setattr (setattr o "imshow_extent" (.arr []))
            "imshow_extent" (.arr [mn1 - (1/2 : ℚ) * st1, mx1 + (1/2 : ℚ) * st1]))
            (l0 ++ "max") with
        | .error e => .error e
        | .ok mx0 =>
        match getNumAttrS (setattr (setattr o "imshow_extent" (.arr []))
            "imshow_extent" (.arr [mn1 - (1/2 : ℚ) * st1, mx1 + (1/2 : ℚ) * st1]))
            ("d" ++ l0) with
        | .error e => .error e
        | .ok st0 =>
            .ok (setattr (setattr (setattr o "imshow_extent" (.arr []))
              "imshow_extent" (.arr [mn1 - (1/2 : ℚ) * st1, mx1 + (1/2 : ℚ) * st1]))
              "imshow_extent"
              (.arr [mn1 - (1/2 : ℚ) * st1, mx1 + (1/2 : ℚ) * st1,
                     mn0 - (1/2 : ℚ) * st0, mx0 + (1/2 : ℚ) * st0])))
    | _ =>
        -- `self.axes` of length 2 that is not a dict: the loop labels are
        -- not strings and the `label+'min'` concatenation raises TypeError
        .error (.typeError "can only concatenate str",
          setattr o "imshow_extent" (.arr []))
  else
    if hasattr o "imshow_extent" then .ok (delattrPure o "imshow_extent") else .ok o

/-! ## `_remove_axis` and `restrict_to_1Daxis` -/

/-- `[self.axes[i] for i in range(ndim)]` with `KeyError` on a gap. -/
def collectLabels (o : Obj) (d : List (ℕ × String)) :
    List ℕ → Except (PyError × Obj) (List String)
  | [] => .ok []
  | k :: ks =>
      match dictGet? d k with
      | none => .error (.keyError, o)
      | some l =>
          match collectLabels o d ks with
          | .error e => .error e
          | .ok ls => .ok (l :: ls)

/-- `FieldMetaInformation._remove_axis(self, obsolete_axis)`.  Note that the
source deletes the coordinate array and the `min`/`max` attributes but never
the spacing attribute `d<label>`. -/
def removeAxis (o : Obj) (obsolete : String) : Except (PyError × Obj) Obj :=
  match delattrS o obsolete with
  | .error e => .error e
  | .ok o1 =>
  match delattrS o1 (obsolete ++ "min") with
  | .error e => .error e
  | .ok o2 =>
  match delattrS o2 (obsolete ++ "max") with
  | .error e => .error e
  | .ok o3 =>
  match getattr? o3 "axes" with
  | none => .error (.attributeError "axes", o3)
  | some (.axesDict d) =>
      (match collectLabels o3 d (List.range d.length) with
      | .error e => .error e
      | .ok ls =>
          let o4 := setattr o3 "axes"
            (.axesDict (enumDict (ls.filter (fun l => decide (¬ l = obsolete)))))
          generateImshowExtent o4)
  | some _ => .error (.typeError "object has no len", o3)

/-- The loop of `restrict_to_1Daxis` over the snapshot of axis labels. -/
def removeLoop : Obj → List String → String → Except (PyError × Obj) Obj
  | o, [], _ => .ok o
  | o, l :: ls, keep =>
      if l = keep then removeLoop o ls keep
      else
        match removeAxis o l with
        | .error e => .error e
        | .ok o2 => removeLoop o2 ls keep

/-- `FieldMetaInformation.restrict_to_1Daxis(self, axis)`. -/
def restrictTo1Daxis (o : Obj) (axis : String) : Except (PyError × Obj) Obj :=
  match getattr? o "axes" with
  | none => .error (.attributeError "axes", o)
  | some (.axesDict d) =>
      if axis ∈ d.map Prod.snd then removeLoop o (d.map Prod.snd) axis
      else .error (.valueError restrictMsg, o)
  | some _ => .error (.typeError "argument is not iterable", o)

/-! ## `_convert_cylindrical_to_3Dcartesian` -/

/-- The guard `(axes[0]=='r' and axes[1]=='z') or (axes[0]=='z' and
axes[1]=='r')`; a missing key raises `KeyError`, which the source catches
together with `AssertionError` and converts to the same `ValueError`. -/
def cylPattern (d : List (ℕ × String)) : Bool :=
  match dictGet? d 0, dictGet? d 1 with
  | some a, some b =>
      (decide (a = "r") && decide (b = "z")) || (decide (a = "z") && decide (b = "r"))
  | _, _ => false

/-- `FieldMetaInformation._convert_cylindrical_to_3Dcartesian(self)`. -/
def convertCylindricalTo3DCartesian (o : Obj) : Except (PyError × Obj) Obj :=
  match getattr? o "axes" with
  | none => .error (.attributeError "axes", o)
  | some (.axesDict d) =>
      if cylPattern d then
        match getAttrS o "r" with
        | .error e => .error e
        | .ok rv =>
        let oA := setattr (setattr o "x" rv) "y" rv
        match delattrS oA "r" with
        | .error e => .error e
        | .ok oB =>
        match getAttrS oB "dr" with
        | .error e => .error e
        | .ok drv =>
        let oC := setattr (setattr oB "dx" drv) "dy" drv
        match delattrS oC "dr" with
        | .error e => .error e
        | .ok oD =>
        match getAttrS oD "rmin" with
        | .error e => .error e
        | .ok rminv =>
        let oE := setattr (setattr oD "xmin" rminv) "ymin" rminv
        match delattrS oE "rmin" with
        | .error e => .error e
        | .ok oF =>
        match getAttrS oF "rmax" with
        | .error e => .error e
        | .ok rmaxv =>
        let oG := setattr (setattr oF "xmax" rmaxv) "ymax" rmaxv
        match delattrS oG "rmax" with
        | .error e => .error e
        | .ok oH =>
            .ok (setattr oH "axes" (.axesDict [(0, "x"), (1, "y"), (2, "z")]))
      else .error (.valueError convertMsg, o)
  | some (.arr xs) =>
      -- a non-dict `self.axes` of array kind: indexing yields floats, the
      -- string comparisons are False, the failed assert becomes ValueError
      -- (an empty array raises IndexError, which is not caught)
      (match xs with
      | [] => .error (.indexError, o)
      | _ :: _ => .error (.valueError convertMsg, o))
  | some (.iarr zs) =>
      (match zs with
      | [] => .error (.indexError, o)
      | _ :: _ => .error (.valueError convertMsg, o))
  | some _ => .error (.typeError "object is not subscriptable", o)

/-! ## `__init__` -/

/-- The raw openPMD grid descriptors consumed by the constructor. -/
structure RawGrid where
  axes : List (ℕ × String)
  shape : List ℕ
  grid_spacing : List ℚ
  global_offset : List ℚ
  grid_unitSI : ℚ
  position : List ℚ
  thetaMode : Bool
  deriving Repr, DecidableEq

/-- One pass of the per-axis loop of `FieldMetaInformation.__init__`:
coordinate derivation, the theta-mode mirroring rule for an axis labelled
`r`, and the four `setattr` registrations. -/
def buildAxis (g : RawGrid) (o : Obj) (axis : ℕ) : Except PyError Obj :=
  match dictGet? g.axes axis with
  | none => .error .keyError
  | some axis_name =>
  match pyListGetQ g.grid_spacing axis with
  | .error e => .error e
  | .ok sp =>
  let step := sp * g.grid_unitSI
  match pyListGetN g.shape axis with
  | .error e => .error e
  | .ok n_points =>
  match pyListGetQ g.global_offset axis with
  | .error e => .error e
  | .ok gov =>
  match pyListGetQ g.position axis with
  | .error e => .error e
  | .ok posv =>
  let start := gov * g.grid_unitSI + posv * step
  let endv := start + ((n_points : ℚ) - 1) * step
  let base := npLinspace start endv n_points
  let pts :=
    if axis_name = "r" ∧ g.thetaMode = true then (base.reverse.map (fun q => -q)) ++ base
    else base
  let o1 := setattr o axis_name (.arr pts)
  let o2 := setattr o1 ("d" ++ axis_name) (.num step)
  match pts.head? with
  | none => .error .indexError
  | some h =>
  let o3 := setattr o2 (axis_name ++ "min") (.num h)
  match pts.getLast? with
  | none => .error .indexError
  | some lastv => .ok (setattr o3 (axis_name ++ "max") (.num lastv))

/-- `for axis in sorted(axes.keys())`. -/
def buildAxesLoop (g : RawGrid) : Obj → List ℕ → Except PyError Obj
  | o, [] => .ok o
  | o, k :: ks =>
      match buildAxis g o k with
      | .error e => .error e
      | .ok o2 => buildAxesLoop g o2 ks

/-- The axis-construction phase of `__init__`: register `self.axes` and run
the per-axis loop over the sorted keys. -/
def buildAxes (g : RawGrid) : Except PyError Obj :=
  buildAxesLoop g (setattr ⟨[]⟩ "axes" (.axesDict g.axes))
    (sortAsc (dedupKeys (g.axes.map Prod.fst)))

/-- `setattr(self, t, time)` where the attribute "name" is the runtime value
of the constructor argument `t` — a float or `None`, never the string
`'t'` — so Python raises `TypeError: attribute name must be string`. -/
def setattrDynQ (_o : Obj) (_name : Option ℚ) (_v : Value) : Except PyError Obj :=
  .error (.typeError "attribute name must be string")

/-- `setattr(self, iteration, iter)` with an int/`None` "name": `TypeError`. -/
def setattrDynZ (_o : Obj) (_name : Option ℤ) (_v : Value) : Except PyError Obj :=
  .error (.typeError "attribute name must be string")

/-- `FieldMetaInformation.__init__`. -/
def init (g : RawGrid) (t : Option ℚ) (iteration : Option ℤ) : Except PyError Obj :=
  match buildAxes g with
  | .error e => .error e
  | .ok o =>
  match findOutput o t iteration with
  | .error e => .error e
  | .ok o2 =>
  -- time = self.t[self._current_i]; iter = self.iterations[self._current_i]
  match getattr? o2 "_current_i" with
  | none => .error (.attributeError "_current_i")
  | some civ =>
  match asIdx civ with
  | .error e => .error e
  | .ok i =>
  match getattr? o2 "t" with
  | none => .error (.attributeError "t")
  | some tval =>
  match pyIndex tval i with
  | .error e => .error e
  | .ok time =>
  match getattr? o2 "iterations" with
  | none => .error (.attributeError "iterations")
  | some itval =>
  match pyIndex itval i with
  | .error e => .error e
  | .ok iterv =>
  match setattrDynQ o2 t time with
  | .error e => .error e
  | .ok o3 =>
  match setattrDynZ o3 iteration iterv with
  | .error e => .error e
  | .ok o4 =>
  match generateImshowExtent o4 with
  | .error e => .error e.1
  | .ok o5 => .ok o5

/-! ## State observations used in the claims -/

/-- The `axes` dictionary of the object, when it is present and dict-valued. -/
def axesOf? (o : Obj) : Option (List (ℕ × String)) :=
  match getattr? o "axes" with
  | some (.axesDict d) => some d
  | _ => none

/-- The labels of the active axes, in index order of the `axes` dictionary. -/
def activeLabels (o : Obj) : List String :=
  match axesOf? o with
  | some d => d.map Prod.snd
  | none => []

/-- The four attribute names holding an axis descriptor: coordinate array,
spacing, minimum and maximum. -/
def descNames (l : String) : List String := [l, "d" ++ l, l ++ "min", l ++ "max"]

/-- The axis labels are usable: the labels are distinct, the derived
attribute names of distinct axes do not collide, each axis's four names are
distinct, and none collides with the fixed names `axes` / `imshow_extent`. -/
def goodLabels (ls : List String) : Prop :=
  ls.Nodup ∧
  (∀ a ∈ ls, ∀ b ∈ ls, a ≠ b → ∀ x ∈ descNames a, ∀ y ∈ descNames b, x ≠ y) ∧
  (∀ a ∈ ls, (descNames a).Nodup ∧
    ∀ x ∈ descNames a, x ≠ "axes" ∧ x ≠ "imshow_extent")

instance (ls : List String) : Decidable (goodLabels ls) := by
  unfold goodLabels; infer_instance

/-- Is the stored value a float array? -/
def isArrOpt : Option Value → Bool
  | some (.arr _) => true
  | _ => false

/-- Is the stored value a float scalar? -/
def isNumOpt : Option Value → Bool
  | some (.num _) => true
  | _ => false

/-- The descriptor of label `l` is fully stored with the expected kinds. -/
def wfAxisAttrs (o : Obj) (l : String) : Bool :=
  isArrOpt (getattr? o l) && isNumOpt (getattr? o ("d" ++ l)) &&
  isNumOpt (getattr? o (l ++ "min")) && isNumOpt (getattr? o (l ++ "max"))

/-- Well-formed metadata state: the `axes` dictionary has contiguous keys
`0..n-1` in order, non-colliding labels, and every active axis descriptor is
stored. -/
def wfB (o : Obj) : Bool :=
  match axesOf? o with
  | none => false
  | some d =>
      decide (d.map Prod.fst = List.range d.length) &&
      decide (goodLabels (d.map Prod.snd)) &&
      (d.map Prod.snd).all (fun l => wfAxisAttrs o l)

/-- The scalar stored at attribute `n` (junk default `0` if absent). -/
def numAttrD (o : Obj) (n : String) : ℚ :=
  match getattr? o n with
  | some (.num q) => q
  | _ => 0

/-- The extent values `_generate_imshow_extent` computes for axis labels
`l1 = axes[1]` (processed first) and `l0 = axes[0]`. -/
def extentVals (o : Obj) (l1 l0 : String) : List ℚ :=
  [numAttrD o (l1 ++ "min") - (1/2 : ℚ) * numAttrD o ("d" ++ l1),
   numAttrD o (l1 ++ "max") + (1/2 : ℚ) * numAttrD o ("d" ++ l1),
   numAttrD o (l0 ++ "min") - (1/2 : ℚ) * numAttrD o ("d" ++ l0),
   numAttrD o (l0 ++ "max") + (1/2 : ℚ) * numAttrD o ("d" ++ l0)]

/-- The extent invariant of the claims: `imshow_extent` is present if and
only if exactly two axes are active, and then holds the half-cell-padded
bounds of `axes[1]` (first) and `axes[0]` (second). -/
def extentInvB (o : Obj) : Bool :=
  match axesOf? o with
  | none => false
  | some d =>
      if d.length = 2 then
        match dictGet? d 1, dictGet? d 0 with
        | some l1, some l0 =>
            decide (getattr? o "imshow_extent" = some (.arr (extentVals o l1 l0)))
        | _, _ => false
      else decide (getattr? o "imshow_extent" = none)

/-- A sequence of `_remove_axis` calls. -/
def removeSeq : Obj → List String → Except (PyError × Obj) Obj
  | o, [] => .ok o
  | o, l :: ls =>
      match removeAxis o l with
      | .error e => .error e
      | .ok o2 => removeSeq o2 ls

/-- Observe an attribute of the result of a mutating call (none on failure). -/
def okGet (r : Except (PyError × Obj) Obj) (n : String) : Option Value :=
  match r with
  | .ok o => getattr? o n
  | .error _ => none

/-- Observe an attribute of the result of a plain call (none on failure). -/
def okGetP (r : Except PyError Obj) (n : String) : Option Value :=
  match r with
  | .ok o => getattr? o n
  | .error _ => none

/-- The object state at the moment an exception was raised (default on
success). -/
def errStateD (r : Except (PyError × Obj) Obj) (d : Obj) : Obj :=
  match r with
  | .error (_, s) => s
  | .ok _ => d

/-- Did the call raise the domain-specific `OpenPMDException`? -/
def raisesOpenPMD : Except (PyError × Obj) Obj → Bool
  | .error (.openPMDException _, _) => true
  | _ => false

/-! ## Claim C1: the spec's end-to-end construction example -/

/-- The grid descriptors of the spec's end-to-end example. -/
def exampleGrid : RawGrid :=
  { axes := [(0, "x"), (1, "y")], shape := [3, 3], grid_spacing := [1, 1],
    global_offset := [0, 0], grid_unitSI := 1, position := [0, 0],
    thetaMode := false }

/-- **C1** (code_bug): the spec claims that constructing the metadata object
with axes `{0:'x',1:'y'}`, shape `[3,3]`, spacing `[1,1]`, offset `[0,0]`,
unit `1`, position `[0,0]` and `t=1.0` succeeds with `x=[0,1,2]`,
`y=[0,1,2]`, `current_time=1.0`, `current_iteration=10` and extent
`[-0.5,2.5,-0.5,2.5]`.  In the code, the axis-construction phase does
produce `x=[0,1,2]` and `y=[0,1,2]`, but the constructor then calls
`_find_output`, which reads `self.tmin` — an attribute that nothing ever
initialises (the constructor receives no time/iteration arrays) — so
construction raises `AttributeError` and never returns an object. -/
theorem C1_example_construction :
    init exampleGrid (some 1) none = .error (.attributeError "tmin") ∧
    okGetP (buildAxes exampleGrid) "x" = some (.arr [0, 1, 2]) ∧
    okGetP (buildAxes exampleGrid) "y" = some (.arr [0, 1, 2]) := by
  refine ⟨rfl, ?_, ?_⟩ <;>
    (norm_num [okGetP, buildAxes, exampleGrid, buildAxesLoop, buildAxis,
      sortAsc, insertAsc, dedupKeys, dictGet?, pyListGetQ, pyListGetN,
      npLinspace, List.range_succ, setattr, getattr?, setAttrList,
      getAttrList]
     decide)

/-! ## Claim C2: every construction raises before returning -/

/-- **C2** (confirmed): for every combination of constructor inputs,
`FieldMetaInformation.__init__` raises an exception before returning: the
index-resolution step reads time/iteration data that no operation of the
class initialises, and even when axis labels happen to populate those
attributes, the constructor then calls `setattr` with the runtime values of
the `t` and `iteration` arguments (a float/int/`None`, never the strings
`'t'`/`'iteration'`) as attribute names, which raises `TypeError`.  Hence no
fully constructed object is ever produced. -/
theorem C2_construction_always_raises (g : RawGrid) (t : Option ℚ)
    (iteration : Option ℤ) :
    ∃ e, init g t iteration = .error e := by
  unfold init
  repeat' (first | exact ⟨_, rfl⟩ | split)

/-! ## Lemmas about `np.argmin` -/

section ArgminLemmas

variable {α : Type} [LinearOrder α] [Inhabited α] [DecidableEq α]

theorem npArgmin_lt_length {xs : List α} (h : xs ≠ []) :
    npArgmin xs < xs.length :=
  firstIdx_lt_length ⟨npMin xs, npMin_mem h, by simp⟩

theorem npArgmin_get {xs : List α} (h : npArgmin xs < xs.length) :
    xs.get ⟨npArgmin xs, h⟩ = npMin xs := by
  have := @firstIdx_get _ (fun x => decide (x = npMin xs)) xs h
  simpa using this

theorem npArgmin_before {xs : List α} {k : ℕ} (hk : k < xs.length)
    (hlt : k < npArgmin xs) : ¬ xs.get ⟨k, hk⟩ = npMin xs := by
  have := @firstIdx_before _ (fun x => decide (x = npMin xs)) xs k hk hlt
  simpa using this

/-- `np.argmin` returns the index of the minimum, first occurrence. -/
theorem npArgmin_eq_first_min {xs : List α} {j : ℕ} (hj : j < xs.length)
    (hmin : ∀ y ∈ xs, xs.get ⟨j, hj⟩ ≤ y)
    (hbefore : ∀ k (hk : k < j), ¬ xs.get ⟨k, Nat.lt_trans hk hj⟩ = xs.get ⟨j, hj⟩) :
    npArgmin xs = j := by
  have hne : xs ≠ [] := by
    intro h; rw [h] at hj; exact absurd hj (by simp)
  have hjmin : xs.get ⟨j, hj⟩ = npMin xs :=
    le_antisymm (hmin _ (npMin_mem hne)) (npMin_le (List.get_mem xs j hj))
  unfold npArgmin
  apply firstIdx_eq hj
  · simpa using hjmin
  · intro k hk
    have h2 := hbefore k hk
    simp only [decide_eq_false_iff_not]
    rw [← hjmin]
    exact h2

end ArgminLemmas

/-! ## Success of the `current_t`/`current_iteration` registration -/

theorem registerCurrent_ok (o : Obj) (ts : List ℚ) (its : List ℤ) (i : ℕ)
    (ht : getattr? o "t" = some (.arr ts))
    (hits : getattr? o "iterations" = some (.iarr its))
    (hi : i < ts.length) (hi2 : i < its.length) :
    ∃ o2, registerCurrent (setattr o "_current_i" (.idx i)) = .ok o2 ∧
      getattr? o2 "_current_i" = some (.idx i) := by
  refine ⟨setattr (setattr (setattr o "_current_i" (.idx i)) "current_t"
      (.num (ts.get ⟨i, hi⟩))) "current_iteration" (.int (its.get ⟨i, hi2⟩)), ?_, ?_⟩
  · have e1 : ("t" : String) ≠ "_current_i" := by decide
    have e2 : ("iterations" : String) ≠ "current_t" := by decide
    have e3 : ("iterations" : String) ≠ "_current_i" := by decide
    simp only [registerCurrent, getattr?_setattr, eq_self_iff_true, if_true,
      if_neg e1, if_neg e2, if_neg e3, ht, hits, asIdx, pyIndex,
      List.get?_eq_get hi, List.get?_eq_get hi2]
  · simp

theorem get_map_abs (ts : List ℚ) (tv : ℚ) (j : ℕ) (hj : j < ts.length)
    (hdj : j < (ts.map (fun x => |x - tv|)).length) :
    (ts.map (fun x => |x - tv|)).get ⟨j, hdj⟩ = |ts.get ⟨j, hj⟩ - tv| := by
  simp [List.get_eq_getElem, List.getElem_map]

/-! ## Claim C5: `_find_output` with a requested time -/

/-- **C5** (confirmed): on a state holding a time array, its min/max and a
parallel iterations array, `_find_output(t, None)` succeeds; the resolved
index is `0` when `t` is below the minimum of the time array, the last index
when `t` is above the maximum, and otherwise the index of the time value at
minimum absolute difference from `t` (first occurrence on ties); in
particular, a `t` equal to an array value resolves to the first index
holding that value. -/
theorem C5_resolve_time (o : Obj) (ts : List ℚ) (its : List ℤ) (tv : ℚ)
    (hne : ts ≠ [])
    (hlen : its.length = ts.length)
    (ht : getattr? o "t" = some (.arr ts))
    (hmin : getattr? o "tmin" = some (.num (npMin ts)))
    (hmax : getattr? o "tmax" = some (.num (npMax ts)))
    (hits : getattr? o "iterations" = some (.iarr its)) :
    ∃ o2 i, findOutput o (some tv) none = .ok o2 ∧
      getattr? o2 "_current_i" = some (.idx i) ∧
      (tv < npMin ts → i = 0) ∧
      (npMax ts < tv → i = ts.length - 1) ∧
      (¬ tv < npMin ts → ¬ npMax ts < tv →
        i = npArgmin (ts.map (fun x => |x - tv|))) ∧
      (∀ j (hj : j < ts.length), ts.get ⟨j, hj⟩ = tv →
        (∀ k (hk : k < j), ¬ ts.get ⟨k, Nat.lt_trans hk hj⟩ = tv) → i = j) := by
  have hpos : 0 < ts.length := List.length_pos.mpr hne
  unfold findOutput
  simp only [hmin]
  by_cases hlt : tv < npMin ts
  · simp only [show pyLtQ tv (Value.num (npMin ts)) = .ok true by simp [pyLtQ, hlt]]
    obtain ⟨o2, hok, hci⟩ := registerCurrent_ok o ts its 0 ht hits hpos (hlen ▸ hpos)
    refine ⟨o2, 0, hok, hci, fun _ => rfl, ?_, ?_, ?_⟩
    · intro hgt
      exact absurd (lt_trans (lt_of_lt_of_le hlt (npMin_le_npMax hne)) hgt)
        (lt_irrefl tv)
    · intro h; exact absurd hlt h
    · intro j hj hget _
      have hle := npMin_le (List.get_mem ts j hj)
      rw [hget] at hle
      exact absurd (lt_of_le_of_lt hle hlt) (lt_irrefl (npMin ts))
  · simp only [show pyLtQ tv (Value.num (npMin ts)) = .ok false by simp [pyLtQ, hlt],
      hmax]
    by_cases hgt : npMax ts < tv
    · simp only [show pyGtQ tv (Value.num (npMax ts)) = .ok true by simp [pyGtQ, hgt],
        ht, pyLen]
      have hl1 : ts.length - 1 < ts.length := Nat.sub_lt hpos Nat.one_pos
      obtain ⟨o2, hok, hci⟩ :=
        registerCurrent_ok o ts its (ts.length - 1) ht hits hl1 (hlen ▸ hl1)
      refine ⟨o2, ts.length - 1, hok, hci, ?_, fun _ => rfl, ?_, ?_⟩
      · intro h; exact absurd h hlt
      · intro _ h; exact absurd hgt h
      · intro j hj hget _
        have hle := npMax_le (List.get_mem ts j hj)
        rw [hget] at hle
        exact absurd (lt_of_lt_of_le hgt hle) (lt_irrefl (npMax ts))
    · simp only [show pyGtQ tv (Value.num (npMax ts)) = .ok false by simp [pyGtQ, hgt],
        ht, asQList]
      have hdne : ts.map (fun x => |x - tv|) ≠ [] := by simpa using hne
      have hdlen : (ts.map (fun x => |x - tv|)).length = ts.length := by simp
      have hargl : npArgmin (ts.map (fun x => |x - tv|)) < ts.length :=
        hdlen ▸ npArgmin_lt_length hdne
      obtain ⟨o2, hok, hci⟩ :=
        registerCurrent_ok o ts its (npArgmin (ts.map (fun x => |x - tv|)))
          ht hits hargl (hlen ▸ hargl)
      refine ⟨o2, npArgmin (ts.map (fun x => |x - tv|)), hok, hci,
        ?_, ?_, fun _ _ => rfl, ?_⟩
      · intro h; exact absurd h hlt
      · intro h; exact absurd h hgt
      · intro j hj hget hbef
        have hdj : j < (ts.map (fun x => |x - tv|)).length := hdlen ▸ hj
        have hdget : (ts.map (fun x => |x - tv|)).get ⟨j, hdj⟩ = 0 := by
          rw [get_map_abs ts tv j hj hdj, hget]
          simp
        apply npArgmin_eq_first_min hdj
        · rw [hdget]
          intro y hy
          rcases List.mem_map.mp hy with ⟨x, _, rfl⟩
          exact abs_nonneg _
        · intro k hk
          have hkts : k < ts.length := Nat.lt_trans hk hj
          have h2 := hbef k hk
          rw [hdget, get_map_abs ts tv k hkts (Nat.lt_trans hk hdj)]
          intro habs
          exact h2 (by linarith [sub_eq_zero.mp (abs_eq_zero.mp habs)])

/-! ## Claim C6: `_find_output` with a requested iteration -/

theorem get_map_absZ (its : List ℤ) (itv : ℤ) (j : ℕ) (hj : j < its.length)
    (hdj : j < (its.map (fun k => |itv - k|)).length) :
    (its.map (fun k => |itv - k|)).get ⟨j, hdj⟩ = |itv - its.get ⟨j, hj⟩| := by
  simp [List.get_eq_getElem, List.getElem_map]

/-- **C6** (confirmed): on a state holding parallel time/iteration arrays,
`_find_output(None, iteration)` resolves an iteration present in the
iterations array to the first index holding it, and fails for an absent
iteration with an `OpenPMDException` whose message lists every available
iteration, one per line (joined by `"\n - "`), in array order. -/
theorem C6_resolve_iteration (o : Obj) (ts : List ℚ) (its : List ℤ) (itv : ℤ)
    (hlen : its.length = ts.length)
    (ht : getattr? o "t" = some (.arr ts))
    (hits : getattr? o "iterations" = some (.iarr its)) :
    (itv ∈ its →
      ∃ o2 i, findOutput o none (some itv) = .ok o2 ∧
        getattr? o2 "_current_i" = some (.idx i) ∧
        ∃ hi : i < its.length, its.get ⟨i, hi⟩ = itv ∧
          ∀ k (hk : k < i), ¬ its.get ⟨k, Nat.lt_trans hk hi⟩ = itv) ∧
    (itv ∉ its →
      findOutput o none (some itv) =
        .error (.openPMDException (iterMissingMsg itv its))) := by
  constructor
  · intro hmem
    unfold findOutput
    simp only [hits, asZList]
    rw [if_pos hmem]
    have hdne : its.map (fun k => |itv - k|) ≠ [] := by
      simpa using List.ne_nil_of_mem hmem
    have hdlen : (its.map (fun k => |itv - k|)).length = its.length := by simp
    have hargl2 : npArgmin (its.map (fun k => |itv - k|)) <
        (its.map (fun k => |itv - k|)).length := npArgmin_lt_length hdne
    have hargl : npArgmin (its.map (fun k => |itv - k|)) < its.length :=
      hdlen ▸ hargl2
    obtain ⟨o2, hok, hci⟩ :=
      registerCurrent_ok o ts its (npArgmin (its.map (fun k => |itv - k|)))
        ht hits (hlen ▸ hargl) hargl
    -- the minimum of the absolute differences is zero
    obtain ⟨⟨j, hj⟩, hjv⟩ := List.mem_iff_get.mp hmem
    have hdj : j < (its.map (fun k => |itv - k|)).length := hdlen ▸ hj
    have hzero_mem : (its.map (fun k => |itv - k|)).get ⟨j, hdj⟩ = 0 := by
      rw [get_map_absZ its itv j hj hdj, hjv]
      simp
    have hmin0 : npMin (its.map (fun k => |itv - k|)) = 0 := by
      apply le_antisymm
      · rw [← hzero_mem]
        exact npMin_le (List.get_mem _ j hdj)
      · have hm := npMin_mem hdne
        rcases List.mem_map.mp hm with ⟨x, _, hx⟩
        rw [← hx]
        exact abs_nonneg _
    have hvalue : its.get ⟨npArgmin (its.map (fun k => |itv - k|)), hargl⟩ = itv := by
      have hg := npArgmin_get hargl2
      rw [get_map_absZ its itv _ hargl hargl2, hmin0] at hg
      have := sub_eq_zero.mp (abs_eq_zero.mp hg)
      linarith
    refine ⟨o2, _, hok, hci, hargl, hvalue, ?_⟩
    intro k hk
    have hkd : k < (its.map (fun k => |itv - k|)).length :=
      Nat.lt_trans hk hargl2
    have hkits : k < its.length := hdlen ▸ hkd
    have hb := npArgmin_before hkd hk
    rw [hmin0, get_map_absZ its itv k hkits hkd] at hb
    intro habs
    exact hb (by rw [habs]; simp)
  · intro hnmem
    unfold findOutput
    simp only [hits, asZList]
    rw [if_neg hnmem]

/-! ## Lemmas about `np.linspace` -/

theorem npLinspace_length (s e : ℚ) (n : ℕ) : (npLinspace s e n).length = n := by
  unfold npLinspace
  by_cases h : n = 1 <;> simp [h]

theorem npLinspace_ne_nil (s e : ℚ) {n : ℕ} (h : n ≠ 0) : npLinspace s e n ≠ [] := by
  intro hc
  have := npLinspace_length s e n
  rw [hc] at this
  exact h this.symm

theorem npLinspace_head (s e : ℚ) {n : ℕ} (h : n ≠ 0) :
    (npLinspace s e n).head? = some s := by
  unfold npLinspace
  by_cases h1 : n = 1
  · simp [h1]
  · obtain ⟨m, rfl⟩ := Nat.exists_eq_succ_of_ne_zero h
    rw [if_neg h1, List.range_succ_eq_map, List.map_cons]
    simp

theorem npLinspace_getLast (s e : ℚ) {n : ℕ} (h : n ≠ 0) :
    (npLinspace s e n).getLast? = some (if n = 1 then s else e) := by
  unfold npLinspace
  by_cases h1 : n = 1
  · simp [h1]
  · obtain ⟨m, rfl⟩ := Nat.exists_eq_succ_of_ne_zero h
    rw [if_neg h1, if_neg h1, List.range_succ, List.map_append, List.map_cons,
      List.map_nil, List.getLast?_concat]
    have hm : (m : ℚ) ≠ 0 := by
      have h2 : m ≠ 0 := by
        intro hc; exact h1 (by rw [hc])
      exact_mod_cast h2
    have h3 : ((m : ℚ) + 1) - 1 = (m : ℚ) := by ring
    congr 1
    push_cast
    rw [h3]
    field_simp

theorem head?_append_of_ne_nil {α : Type} (l1 l2 : List α) (h : l1 ≠ []) :
    (l1 ++ l2).head? = l1.head? := by
  cases l1 with
  | nil => exact absurd rfl h
  | cons x xs => rfl

/-! ## Claim C4: theta-mode mirroring of the radial axis -/

/-- A grid whose radial axis starts away from zero: shape 3, spacing 1,
global offset 1, so the sampled radii are `[1, 2, 3]`. -/
def mirrorGrid : RawGrid :=
  { axes := [(0, "r")], shape := [3], grid_spacing := [1], global_offset := [1],
    grid_unitSI := 1, position := [0], thetaMode := true }

/-- **C4 counterexample**: the claim asserts the mirrored radial coordinate
array always has "the boundary point between the two halves duplicated".
On `mirrorGrid` the stored array is `[-3, -2, -1, 1, 2, 3]` (with `n = 3`
original points): the two boundary entries at positions `n-1` and `n` are
`-1` and `1`, not a duplicated point. -/
theorem C4_counterexample :
    okGetP (buildAxes mirrorGrid) "r" =
      some (.arr [-3, -2, -1, 1, 2, 3]) ∧
    ¬ ([-3, -2, -1, 1, 2, 3] : List ℚ).get? 2 =
        ([-3, -2, -1, 1, 2, 3] : List ℚ).get? 3 := by
  constructor
  · norm_num [okGetP, buildAxes, mirrorGrid, buildAxesLoop, buildAxis,
      sortAsc, insertAsc, dedupKeys, dictGet?, pyListGetQ, pyListGetN,
      npLinspace, List.range_succ, setattr, getattr?, setAttrList,
      getAttrList]
    decide
  · norm_num [List.get?]

/-- **C4 amended** (the claim corrected no more than the counterexample
forces): during construction, for an axis labelled `r` with `n ≥ 1` original
sample points and `thetaMode` true, the stored coordinate array is exactly
the concatenation of the negated, reversed sample array followed by the
original sample array — `2n` points — and the recorded axis minimum is
`-end`; the boundary entries at positions `n-1` and `n` are `-start` and
`start`, so the boundary point is duplicated precisely when the first
sample `start` is zero (not in general). -/
theorem C4_mirror_amended (g : RawGrid) (o : Obj) (axis : ℕ)
    (sp gov posv step start endv : ℚ) (n : ℕ)
    (hlab : dictGet? g.axes axis = some "r")
    (htm : g.thetaMode = true)
    (hsp : g.grid_spacing.get? axis = some sp)
    (hn : g.shape.get? axis = some n)
    (hgo : g.global_offset.get? axis = some gov)
    (hpos : g.position.get? axis = some posv)
    (hn0 : n ≠ 0)
    (hstep : step = sp * g.grid_unitSI)
    (hstart : start = gov * g.grid_unitSI + posv * step)
    (hendv : endv = start + ((n : ℚ) - 1) * step) :
    ∃ o2,
      buildAxis g o axis = .ok o2 ∧
      getattr? o2 "r" = some (.arr
        (((npLinspace start endv n).reverse.map (fun q => -q)) ++
          npLinspace start endv n)) ∧
      (((npLinspace start endv n).reverse.map (fun q => -q)) ++
          npLinspace start endv n).length = 2 * n ∧
      getattr? o2 "rmin" = some (.num (-endv)) ∧
      (((npLinspace start endv n).reverse.map (fun q => -q)) ++
          npLinspace start endv n).get? (n - 1) = some (-start) ∧
      (((npLinspace start endv n).reverse.map (fun q => -q)) ++
          npLinspace start endv n).get? n = some start ∧
      ((((npLinspace start endv n).reverse.map (fun q => -q)) ++
          npLinspace start endv n).get? (n - 1) =
        (((npLinspace start endv n).reverse.map (fun q => -q)) ++
          npLinspace start endv n).get? n ↔ start = 0) := by
  have hblen : (npLinspace start endv n).length = n := npLinspace_length start endv n
  have hbne : npLinspace start endv n ≠ [] := npLinspace_ne_nil start endv hn0
  have hrlen : ((npLinspace start endv n).reverse.map (fun q => -q)).length = n := by
    simp [hblen]
  have hrne : (npLinspace start endv n).reverse.map (fun q => -q) ≠ [] := by
    intro hc
    rw [hc] at hrlen
    exact hn0 hrlen.symm
  -- the value at the end of the base array equals endv in both cases
  have hifval : (if n = 1 then start else endv) = endv := by
    by_cases h1 : n = 1
    · rw [if_pos h1, hendv, h1]
      push_cast
      ring
    · rw [if_neg h1]
  -- head of the mirrored array
  have hhead : ((((npLinspace start endv n).reverse.map (fun q => -q)) ++
      npLinspace start endv n)).head? = some (-endv) := by
    rw [head?_append_of_ne_nil _ _ hrne, List.head?_map, List.head?_reverse,
      npLinspace_getLast start endv hn0, hifval]
    rfl
  -- last of the mirrored array
  have hlast : ((((npLinspace start endv n).reverse.map (fun q => -q)) ++
      npLinspace start endv n)).getLast? = some endv := by
    rw [List.getLast?_append_of_ne_nil _ hbne, npLinspace_getLast start endv hn0,
      hifval]
  -- evaluate buildAxis
  have e1 : ("r" : String) ≠ "dr" := by decide
  have e2 : ("r" : String) ≠ "rmin" := by decide
  have e3 : ("r" : String) ≠ "rmax" := by decide
  have e4 : ("rmin" : String) ≠ "rmax" := by decide
  have heval : buildAxis g o axis = .ok (setattr (setattr (setattr (setattr o
      "r" (.arr (((npLinspace start endv n).reverse.map (fun q => -q)) ++
        npLinspace start endv n)))
      "dr" (.num step))
      "rmin" (.num (-endv)))
      "rmax" (.num endv)) := by
    have a1 : ("d" ++ "r" : String) = "dr" := rfl
    have a2 : ("r" ++ "min" : String) = "rmin" := rfl
    have a3 : ("r" ++ "max" : String) = "rmax" := rfl
    simp only [buildAxis, hlab, pyListGetQ, hsp, hgo, hpos, pyListGetN, hn,
      ← hstep, ← hstart, ← hendv, htm, eq_self_iff_true, and_self, if_true,
      a1, a2, a3, hhead, hlast]
  refine ⟨_, heval, ?_, ?_, ?_, ?_, ?_, ?_⟩
  · simp only [getattr?_setattr, if_neg e3, if_neg e2, if_neg e1,
      eq_self_iff_true, if_true]
  · simp only [List.length_append, List.length_map, List.length_reverse, hblen]
    omega
  · simp only [getattr?_setattr, if_neg e4, eq_self_iff_true, if_true]
  · have hn1 : n - 1 < ((npLinspace start endv n).reverse.map (fun q => -q)).length := by
      rw [hrlen]; omega
    rw [List.get?_append hn1, List.get?_map, List.get?_reverse (by rw [hblen]; omega)]
    rw [hblen]
    have h0 : n - 1 - (n - 1) = 0 := by omega
    rw [h0, List.get?_zero, npLinspace_head start endv hn0]
    rfl
  · rw [List.get?_append_right (by rw [hrlen])]
    rw [hrlen, Nat.sub_self, List.get?_zero, npLinspace_head start endv hn0]
  · constructor
    · intro h
      have h1 : n - 1 < ((npLinspace start endv n).reverse.map (fun q => -q)).length := by
        rw [hrlen]; omega
      rw [List.get?_append h1, List.get?_map,
        List.get?_reverse (by rw [hblen]; omega), hblen,
        (by omega : n - 1 - (n - 1) = 0), List.get?_zero,
        npLinspace_head start endv hn0,
        List.get?_append_right (by rw [hrlen]), hrlen, Nat.sub_self,
        List.get?_zero, npLinspace_head start endv hn0] at h
      have h2 : -start = start := by
        simpa using h
      linarith
    · intro h
      rw [h]
      have h1 : n - 1 < ((npLinspace 0 endv n).reverse.map (fun q => -q)).length := by
        rw [h] at hrlen
        rw [hrlen]; omega
      rw [List.get?_append h1, List.get?_map,
        List.get?_reverse (by rw [h] at hblen; rw [hblen]; omega)]
      rw [h] at hblen hrlen
      rw [hblen, (by omega : n - 1 - (n - 1) = 0), List.get?_zero,
        npLinspace_head 0 endv hn0,
        List.get?_append_right (by rw [hrlen]), hrlen, Nat.sub_self,
        List.get?_zero, npLinspace_head 0 endv hn0]
      norm_num

/-! ## Extraction lemmas for the well-formedness predicates -/

theorem isArrOpt_spec {v : Option Value} (h : isArrOpt v = true) :
    ∃ xs, v = some (.arr xs) := by
  cases v with
  | none => simp [isArrOpt] at h
  | some w =>
      cases w with
      | arr xs => exact ⟨xs, rfl⟩
      | num q => simp [isArrOpt] at h
      | int z => simp [isArrOpt] at h
      | idx n => simp [isArrOpt] at h
      | iarr zs => simp [isArrOpt] at h
      | axesDict d => simp [isArrOpt] at h

theorem isNumOpt_spec {v : Option Value} (h : isNumOpt v = true) :
    ∃ q, v = some (.num q) := by
  cases v with
  | none => simp [isNumOpt] at h
  | some w =>
      cases w with
      | num q => exact ⟨q, rfl⟩
      | arr xs => simp [isNumOpt] at h
      | int z => simp [isNumOpt] at h
      | idx n => simp [isNumOpt] at h
      | iarr zs => simp [isNumOpt] at h
      | axesDict d => simp [isNumOpt] at h

theorem wfAxisAttrs_spec {o : Obj} {l : String} (h : wfAxisAttrs o l = true) :
    (∃ xs, getattr? o l = some (.arr xs)) ∧
    (∃ q, getattr? o ("d" ++ l) = some (.num q)) ∧
    (∃ q, getattr? o (l ++ "min") = some (.num q)) ∧
    (∃ q, getattr? o (l ++ "max") = some (.num q)) := by
  unfold wfAxisAttrs at h
  have h1 := Bool.and_eq_true_iff.mp h
  have h2 := Bool.and_eq_true_iff.mp h1.1
  have h3 := Bool.and_eq_true_iff.mp h2.1
  exact ⟨isArrOpt_spec h3.1, isNumOpt_spec h3.2, isNumOpt_spec h2.2,
    isNumOpt_spec h1.2⟩

theorem getNumAttrS_ok {o : Obj} {n : String} {q : ℚ}
    (h : getNumAttrS o n = .ok q) : getattr? o n = some (.num q) := by
  unfold getNumAttrS at h
  cases hx : getattr? o n with
  | none => rw [hx] at h; cases h
  | some v =>
      cases v with
      | num q2 => rw [hx] at h; cases h; rfl
      | arr xs => rw [hx] at h; cases h
      | int z => rw [hx] at h; cases h
      | idx m => rw [hx] at h; cases h
      | iarr zs => rw [hx] at h; cases h
      | axesDict d => rw [hx] at h; cases h

theorem dictGet?_mem {d : List (ℕ × String)} {k : ℕ} {v : String}
    (h : dictGet? d k = some v) : v ∈ d.map Prod.snd := by
  induction d with
  | nil => cases h
  | cons p ps ih =>
      unfold dictGet? at h
      by_cases hp : p.1 = k
      · rw [if_pos hp] at h
        injection h with h
        rw [List.map_cons, h]
        exact List.mem_cons_self _ _
      · rw [if_neg hp] at h
        exact List.mem_cons_of_mem _ (ih h)

/-! ## `_generate_imshow_extent` establishes the extent invariant -/

theorem ne_extent_of_num {o : Obj} {n : String} {q : ℚ} {xs : List ℚ}
    (hnum : getattr? o n = some (.num q))
    (hext : getattr? o "imshow_extent" = some (.arr xs)) :
    n ≠ "imshow_extent" := by
  intro he
  rw [he, hext] at hnum
  cases hnum

theorem generate_ok_extentInv {o o2 : Obj} {d : List (ℕ × String)}
    (hax : getattr? o "axes" = some (.axesDict d))
    (h : generateImshowExtent o = .ok o2) : extentInvB o2 = true := by
  unfold generateImshowExtent at h
  rw [hax] at h
  simp only [pyLen] at h
  by_cases h2 : d.length = 2
  · rw [if_pos h2] at h
    split at h
    · exact Except.noConfusion h
    · exact Except.noConfusion h
    rename_i l1 l0 hg1 hg0
    split at h
    · exact Except.noConfusion h
    rename_i mn1 ha1
    split at h
    · exact Except.noConfusion h
    rename_i mx1 ha2
    split at h
    · exact Except.noConfusion h
    rename_i st1 ha3
    split at h
    · exact Except.noConfusion h
    rename_i mn0 ha4
    split at h
    · exact Except.noConfusion h
    rename_i mx0 ha5
    split at h
    · exact Except.noConfusion h
    rename_i st0 ha6
    injection h with h
    subst h
    -- the six attribute names are distinct from "imshow_extent"
    have hb1 := getNumAttrS_ok ha1
    have hb2 := getNumAttrS_ok ha2
    have hb3 := getNumAttrS_ok ha3
    have hb4 := getNumAttrS_ok ha4
    have hb5 := getNumAttrS_ok ha5
    have hb6 := getNumAttrS_ok ha6
    have hext0 : getattr? (setattr o "imshow_extent" (.arr []))
        "imshow_extent" = some (.arr []) := by simp
    have hextA : getattr? (setattr (setattr o "imshow_extent" (.arr []))
        "imshow_extent" (.arr [mn1 - (1/2 : ℚ) * st1, mx1 + (1/2 : ℚ) * st1]))
        "imshow_extent" =
        some (.arr [mn1 - (1/2 : ℚ) * st1, mx1 + (1/2 : ℚ) * st1]) := by simp
    have hn1 := ne_extent_of_num hb1 hext0
    have hn2 := ne_extent_of_num hb2 hext0
    have hn3 := ne_extent_of_num hb3 hext0
    have hn4 := ne_extent_of_num hb4 hextA
    have hn5 := ne_extent_of_num hb5 hextA
    have hn6 := ne_extent_of_num hb6 hextA
    have haxne : ("axes" : String) ≠ "imshow_extent" := by decide
    have hv1 : numAttrD (setattr (setattr (setattr o "imshow_extent" (.arr []))
        "imshow_extent" (.arr [mn1 - (1/2 : ℚ) * st1, mx1 + (1/2 : ℚ) * st1]))
        "imshow_extent" (.arr [mn1 - (1/2 : ℚ) * st1, mx1 + (1/2 : ℚ) * st1,
          mn0 - (1/2 : ℚ) * st0, mx0 + (1/2 : ℚ) * st0])) (l1 ++ "min") = mn1 := by
      unfold numAttrD
      simp only [getattr?_setattr, if_neg hn1] at hb1 ⊢
      rw [hb1]
    have hv2 : numAttrD (setattr (setattr (setattr o "imshow_extent" (.arr []))
        "imshow_extent" (.arr [mn1 - (1/2 : ℚ) * st1, mx1 + (1/2 : ℚ) * st1]))
        "imshow_extent" (.arr [mn1 - (1/2 : ℚ) * st1, mx1 + (1/2 : ℚ) * st1,
          mn0 - (1/2 : ℚ) * st0, mx0 + (1/2 : ℚ) * st0])) (l1 ++ "max") = mx1 := by
      unfold numAttrD
      simp only [getattr?_setattr, if_neg hn2] at hb2 ⊢
      rw [hb2]
    have hv3 : numAttrD (setattr (setattr (setattr o "imshow_extent" (.arr []))
        "imshow_extent" (.arr [mn1 - (1/2 : ℚ) * st1, mx1 + (1/2 : ℚ) * st1]))
        "imshow_extent" (.arr [mn1 - (1/2 : ℚ) * st1, mx1 + (1/2 : ℚ) * st1,
          mn0 - (1/2 : ℚ) * st0, mx0 + (1/2 : ℚ) * st0])) ("d" ++ l1) = st1 := by
      unfold numAttrD
      simp only [getattr?_setattr, if_neg hn3] at hb3 ⊢
      rw [hb3]
    have hv4 : numAttrD (setattr (setattr (setattr o "imshow_extent" (.arr []))
        "imshow_extent" (.arr [mn1 - (1/2 : ℚ) * st1, mx1 + (1/2 : ℚ) * st1]))
        "imshow_extent" (.arr [mn1 - (1/2 : ℚ) * st1, mx1 + (1/2 : ℚ) * st1,
          mn0 - (1/2 : ℚ) * st0, mx0 + (1/2 : ℚ) * st0])) (l0 ++ "min") = mn0 := by
      unfold numAttrD
      simp only [getattr?_setattr, if_neg hn4] at hb4 ⊢
      rw [hb4]
    have hv5 : numAttrD (setattr (setattr (setattr o "imshow_extent" (.arr []))
        "imshow_extent" (.arr [mn1 - (1/2 : ℚ) * st1, mx1 + (1/2 : ℚ) * st1]))
        "imshow_extent" (.arr [mn1 - (1/2 : ℚ) * st1, mx1 + (1/2 : ℚ) * st1,
          mn0 - (1/2 : ℚ) * st0, mx0 + (1/2 : ℚ) * st0])) (l0 ++ "max") = mx0 := by
      unfold numAttrD
      simp only [getattr?_setattr, if_neg hn5] at hb5 ⊢
      rw [hb5]
    have hv6 : numAttrD (setattr (setattr (setattr o "imshow_extent" (.arr []))
        "imshow_extent" (.arr [mn1 - (1/2 : ℚ) * st1, mx1 + (1/2 : ℚ) * st1]))
        "imshow_extent" (.arr [mn1 - (1/2 : ℚ) * st1, mx1 + (1/2 : ℚ) * st1,
          mn0 - (1/2 : ℚ) * st0, mx0 + (1/2 : ℚ) * st0])) ("d" ++ l0) = st0 := by
      unfold numAttrD
      simp only [getattr?_setattr, if_neg hn6] at hb6 ⊢
      rw [hb6]
    simp only [extentInvB, axesOf?, getattr?_setattr, if_neg haxne, hax,
      if_pos h2, hg1, hg0, extentVals, hv1, hv2, hv3, hv4, hv5, hv6]
    simp
  · rw [if_neg h2] at h
    by_cases hh : hasattr o "imshow_extent"
    · rw [if_pos hh] at h
      injection h with h
      subst h
      have haxne : ("axes" : String) ≠ "imshow_extent" := by decide
      have hax2 : getattr? (delattrPure o "imshow_extent") "axes" =
          some (.axesDict d) := by simp [haxne, hax]
      have hext2 : getattr? (delattrPure o "imshow_extent") "imshow_extent" =
          none := by simp
      simp only [extentInvB, axesOf?, hax2, if_neg h2, hext2]
      simp
    · rw [if_neg hh] at h
      injection h with h
      subst h
      have hnone : getattr? o "imshow_extent" = none := by
        unfold hasattr at hh
        cases hx : getattr? o "imshow_extent" with
        | none => rfl
        | some v => rw [hx] at hh; simp at hh
      simp only [extentInvB, axesOf?, hax, if_neg h2, hnone]
      simp

/-- Any successful `_remove_axis` call re-establishes the extent invariant
(it always ends by calling `_generate_imshow_extent`). -/
theorem removeAxis_ok_extentInv {o o2 : Obj} {l : String}
    (h : removeAxis o l = .ok o2) : extentInvB o2 = true := by
  unfold removeAxis at h
  split at h
  · exact Except.noConfusion h
  rename_i o1 hd1
  split at h
  · exact Except.noConfusion h
  rename_i ob hd2
  split at h
  · exact Except.noConfusion h
  rename_i oc hd3
  split at h
  · exact Except.noConfusion h
  · rename_i d hax3
    split at h
    · exact Except.noConfusion h
    rename_i ls hcol
    have hax4 : getattr? (setattr oc "axes" (Value.axesDict (enumDict
        (List.filter (fun x => decide (¬ x = l)) ls)))) "axes" =
        some (Value.axesDict (enumDict
          (List.filter (fun x => decide (¬ x = l)) ls))) := by
      simp
    exact generate_ok_extentInv hax4 h
  · exact Except.noConfusion h

/-- The state after a successful call, or a default on failure. -/
def okStateD (r : Except (PyError × Obj) Obj) (d : Obj) : Obj :=
  match r with
  | .ok o => o
  | .error _ => d

/-! ## Claim C3: the extent invariant under sequences of `_remove_axis` -/

/-- **C3** (confirmed): for every metadata state satisfying the extent
invariant and every sequence of `_remove_axis` calls that completes without
raising, the resulting state again satisfies the invariant: the
`imshow_extent` attribute exists iff exactly 2 axes remain active, and then
its 4 values are `[min1 - 0.5*d1, max1 + 0.5*d1, min0 - 0.5*d0,
max0 + 0.5*d0]` computed from the stored descriptor components of `axes[1]`
(processed first) and `axes[0]`. -/
theorem C3_extent_invariant (o o2 : Obj) (seq : List String)
    (hinv : extentInvB o = true) (h : removeSeq o seq = .ok o2) :
    extentInvB o2 = true := by
  induction seq generalizing o with
  | nil =>
      unfold removeSeq at h
      injection h with h
      subst h
      exact hinv
  | cons l ls ih =>
      unfold removeSeq at h
      split at h
      · exact Except.noConfusion h
      rename_i o1 h1
      exact ih o1 (removeAxis_ok_extentInv h1) h

/-- A three-axis well-formed state used as concrete input by witnesses. -/
def demoObj3 : Obj := ⟨[("axes", .axesDict [(0, "x"), (1, "y"), (2, "z")]),
  ("x", .arr [0, 1]), ("dx", .num 1), ("xmin", .num 0), ("xmax", .num 1),
  ("y", .arr [0, 1]), ("dy", .num 1), ("ymin", .num 0), ("ymax", .num 1),
  ("z", .arr [0, 1]), ("dz", .num 1), ("zmin", .num 0), ("zmax", .num 1)]⟩

theorem C3_extent_invariant_witness :
    extentInvB (okStateD (removeSeq demoObj3 ["z"]) demoObj3) = true := by
  have h1 : extentInvB demoObj3 = true := by decide
  cases hr : removeSeq demoObj3 ["z"] with
  | error e => exact h1
  | ok o2 => exact C3_extent_invariant demoObj3 o2 ["z"] h1 hr

/-! ## Claim C7: `_convert_cylindrical_to_3Dcartesian` -/

/-- A three-axis state whose first two axes are `r`, `z`: the conversion
guard only inspects `axes[0]` and `axes[1]`, so this state passes it. -/
def demoObjRZW : Obj := ⟨[("axes", .axesDict [(0, "r"), (1, "z"), (2, "w")]),
  ("r", .arr [0, 1]), ("dr", .num 1), ("rmin", .num 0), ("rmax", .num 1),
  ("z", .arr [0, 1]), ("dz", .num 1), ("zmin", .num 0), ("zmax", .num 1),
  ("w", .arr [0, 1]), ("dw", .num 1), ("wmin", .num 0), ("wmax", .num 1)]⟩

/-- **C7 counterexample**: the claim says the conversion fails for any axis
set other than exactly `{0:'r',1:'z'}` or `{0:'z',1:'r'}`.  But the guard
only asserts on `axes[0]` and `axes[1]`, so on a three-axis state
`{0:'r',1:'z',2:'w'}` the conversion succeeds instead of failing. -/
theorem C7_counterexample :
    axesOf? demoObjRZW = some [(0, "r"), (1, "z"), (2, "w")] ∧
    (convertCylindricalTo3DCartesian demoObjRZW).isOk = true := by
  constructor <;> decide

/-- Success case of `_convert_cylindrical_to_3Dcartesian`, shared between the
claims: with the `r`/`z` guard satisfied and the four `r` attributes present,
the conversion succeeds with the stated effects. -/
theorem convert_ok_spec (o : Obj) (d : List (ℕ × String))
    (rv drv rminv rmaxv : Value)
    (hax : getattr? o "axes" = some (.axesDict d))
    (hpat : cylPattern d = true)
    (hr : getattr? o "r" = some rv) (hdr : getattr? o "dr" = some drv)
    (hrmin : getattr? o "rmin" = some rminv)
    (hrmax : getattr? o "rmax" = some rmaxv) :
    ∃ o2, convertCylindricalTo3DCartesian o = .ok o2 ∧
      getattr? o2 "x" = some rv ∧ getattr? o2 "y" = some rv ∧
      getattr? o2 "dx" = some drv ∧ getattr? o2 "dy" = some drv ∧
      getattr? o2 "xmin" = some rminv ∧ getattr? o2 "ymin" = some rminv ∧
      getattr? o2 "xmax" = some rmaxv ∧ getattr? o2 "ymax" = some rmaxv ∧
      getattr? o2 "r" = none ∧ getattr? o2 "dr" = none ∧
      getattr? o2 "rmin" = none ∧ getattr? o2 "rmax" = none ∧
      getattr? o2 "axes" = some (.axesDict [(0, "x"), (1, "y"), (2, "z")]) ∧
      (∀ n, n ∉ ["x", "y", "dx", "dy", "xmin", "ymin", "xmax", "ymax",
        "r", "dr", "rmin", "rmax", "axes"] →
        getattr? o2 n = getattr? o n) := by
  refine ⟨setattr (delattrPure (setattr (setattr (delattrPure (setattr (setattr
    (delattrPure (setattr (setattr (delattrPure (setattr (setattr o "x" rv)
    "y" rv) "r") "dx" drv) "dy" drv) "dr") "xmin" rminv) "ymin" rminv)
    "rmin") "xmax" rmaxv) "ymax" rmaxv) "rmax") "axes"
    (.axesDict [(0, "x"), (1, "y"), (2, "z")]),
    ?_, ?_, ?_, ?_, ?_, ?_, ?_, ?_, ?_, ?_, ?_, ?_, ?_, ?_, ?_⟩
  · simp [convertCylindricalTo3DCartesian, getAttrS, delattrS, hasattr,
      hax, hpat, hr, hdr, hrmin, hrmax]
  · simp
  · simp
  · simp
  · simp
  · simp
  · simp
  · simp
  · simp
  · simp
  · simp
  · simp
  · simp
  · simp
  · intro n hn
    simp only [List.mem_cons, List.not_mem_nil, or_false, not_or] at hn
    obtain ⟨n1, n2, n3, n4, n5, n6, n7, n8, n9, n10, n11, n12, n13⟩ := hn
    simp [getattr?_setattr, getattr?_delattrPure,
      n1, n2, n3, n4, n5, n6, n7, n8, n9, n10, n11, n12, n13]

/-- **C7 amended** (corrected no more than the counterexample forces): the
conversion requires only that the axis ordering maps `0` and `1` to `'r'`
and `'z'` in either order — extra axes are permitted and silently discarded
when the ordering is overwritten — and fails with the `ValueError` otherwise
with the state unchanged; on success it creates `x`/`y` descriptors as exact
copies of the former `r` descriptor (same array, spacing, min, max), deletes
all four `r` components, leaves every other attribute (in particular the
whole `z` descriptor) untouched, and sets the ordering to
`{0:'x',1:'y',2:'z'}`. -/
theorem C7_convert_amended (o : Obj) (d : List (ℕ × String))
    (hax : getattr? o "axes" = some (.axesDict d)) :
    (cylPattern d = false →
      convertCylindricalTo3DCartesian o = .error (.valueError convertMsg, o)) ∧
    (∀ rv drv rminv rmaxv,
      cylPattern d = true →
      getattr? o "r" = some rv → getattr? o "dr" = some drv →
      getattr? o "rmin" = some rminv → getattr? o "rmax" = some rmaxv →
      ∃ o2, convertCylindricalTo3DCartesian o = .ok o2 ∧
        getattr? o2 "x" = some rv ∧ getattr? o2 "y" = some rv ∧
        getattr? o2 "dx" = some drv ∧ getattr? o2 "dy" = some drv ∧
        getattr? o2 "xmin" = some rminv ∧ getattr? o2 "ymin" = some rminv ∧
        getattr? o2 "xmax" = some rmaxv ∧ getattr? o2 "ymax" = some rmaxv ∧
        getattr? o2 "r" = none ∧ getattr? o2 "dr" = none ∧
        getattr? o2 "rmin" = none ∧ getattr? o2 "rmax" = none ∧
        getattr? o2 "axes" = some (.axesDict [(0, "x"), (1, "y"), (2, "z")]) ∧
        (∀ n, n ∉ ["x", "y", "dx", "dy", "xmin", "ymin", "xmax", "ymax",
          "r", "dr", "rmin", "rmax", "axes"] →
          getattr? o2 n = getattr? o n)) := by
  constructor
  · intro hpat
    simp [convertCylindricalTo3DCartesian, hax, hpat]
  · intro rv drv rminv rmaxv hpat hr hdr hrmin hrmax
    exact convert_ok_spec o d rv drv rminv rmaxv hax hpat hr hdr hrmin hrmax

/-- A two-axis cylindrical state. -/
def demoObjRZ : Obj := ⟨[("axes", .axesDict [(0, "r"), (1, "z")]),
  ("r", .arr [0, 1]), ("dr", .num 1), ("rmin", .num 0), ("rmax", .num 1),
  ("z", .arr [0, 1]), ("dz", .num 1), ("zmin", .num 0), ("zmax", .num 1)]⟩

theorem C7_convert_amended_witness :
    okGet (convertCylindricalTo3DCartesian demoObjRZ) "x" =
      some (.arr [0, 1]) ∧
    okGet (convertCylindricalTo3DCartesian demoObjRZ) "r" = none ∧
    okGet (convertCylindricalTo3DCartesian demoObjRZ) "axes" =
      some (.axesDict [(0, "x"), (1, "y"), (2, "z")]) := by
  obtain ⟨hfail, hsucc⟩ :=
    C7_convert_amended demoObjRZ [(0, "r"), (1, "z")] (by decide)
  obtain ⟨o2, hok, hx, hy, hdx, hdy, hxmin, hymin, hxmax, hymax, hr, hdr,
    hrmin, hrmax, haxs, hframe⟩ :=
    hsucc (.arr [0, 1]) (.num 1) (.num 0) (.num 1) (by decide) (by decide)
      (by decide) (by decide) (by decide)
  refine ⟨?_, ?_, ?_⟩
  · rw [show okGet (convertCylindricalTo3DCartesian demoObjRZ) "x" =
      getattr? o2 "x" by rw [hok]; exact rfl]
    exact hx
  · rw [show okGet (convertCylindricalTo3DCartesian demoObjRZ) "r" =
      getattr? o2 "r" by rw [hok]; exact rfl]
    exact hr
  · rw [show okGet (convertCylindricalTo3DCartesian demoObjRZ) "axes" =
      getattr? o2 "axes" by rw [hok]; exact rfl]
    exact haxs

/-! ## Dictionary and enumeration lemmas for `_remove_axis` -/

theorem dictGet?_keys_shifted :
    ∀ (d : List (ℕ × String)) (s k : ℕ),
      d.map Prod.fst = (List.range d.length).map (fun i => i + s) →
      k < d.length →
      dictGet? d (k + s) = some ((d.map Prod.snd).getD k "") := by
  intro d
  induction d with
  | nil => intro s k _ hk; simp at hk
  | cons p ps ih =>
      intro s k hkeys hk
      rw [List.map_cons, List.length_cons, List.range_succ_eq_map,
        List.map_cons, List.map_map] at hkeys
      injection hkeys with hp hps
      cases k with
      | zero =>
          unfold dictGet?
          rw [if_pos (by omega : p.1 = 0 + s)]
          simp
      | succ m =>
          unfold dictGet?
          rw [if_neg (by omega : ¬ p.1 = m + 1 + s)]
          have hps2 : ps.map Prod.fst =
              (List.range ps.length).map (fun i => i + (s + 1)) := by
            rw [hps]
            apply List.map_congr_left
            intro a _
            simp [Function.comp]
            omega
          have hm : m < ps.length := by
            simp only [List.length_cons] at hk
            omega
          have := ih (s + 1) m hps2 hm
          rw [show m + 1 + s = m + (s + 1) by omega]
          rw [this]
          simp

theorem dictGet?_range (d : List (ℕ × String))
    (h : d.map Prod.fst = List.range d.length) (k : ℕ) (hk : k < d.length) :
    dictGet? d k = some ((d.map Prod.snd).getD k "") := by
  have h2 : d.map Prod.fst = (List.range d.length).map (fun i => i + 0) := by
    simpa using h
  simpa using dictGet?_keys_shifted d 0 k h2 hk

theorem collectLabels_eval (o : Obj) (d : List (ℕ × String)) (f : ℕ → String) :
    ∀ ks, (∀ k ∈ ks, dictGet? d k = some (f k)) →
      collectLabels o d ks = .ok (ks.map f) := by
  intro ks
  induction ks with
  | nil => intro _; rfl
  | cons k rest ih =>
      intro hall
      unfold collectLabels
      rw [hall k (List.mem_cons_self _ _), ih (fun j hj => hall j
        (List.mem_cons_of_mem _ hj))]
      simp

theorem range_map_getD (xs : List String) :
    (List.range xs.length).map (fun k => xs.getD k "") = xs := by
  induction xs with
  | nil => simp
  | cons x rest ih =>
      rw [List.length_cons, List.range_succ_eq_map, List.map_cons, List.map_map]
      have h2 : ((fun k => (x :: rest).getD k "") ∘ Nat.succ) =
          (fun k => rest.getD k "") := by
        funext k
        simp
      rw [h2, ih]
      rfl

theorem collectLabels_range (o : Obj) (d : List (ℕ × String))
    (h : d.map Prod.fst = List.range d.length) :
    collectLabels o d (List.range d.length) = .ok (d.map Prod.snd) := by
  rw [collectLabels_eval o d (fun k => (d.map Prod.snd).getD k "")
    (List.range d.length)
    (fun k hk => dictGet?_range d h k (List.mem_range.mp hk))]
  congr 1
  rw [show d.length = (d.map Prod.snd).length from by simp]
  exact range_map_getD (d.map Prod.snd)

theorem enumFromIdx_length : ∀ (ls : List String) (i : ℕ),
    (enumFromIdx i ls).length = ls.length := by
  intro ls
  induction ls with
  | nil => intro i; rfl
  | cons l rest ih => intro i; simp [enumFromIdx, ih]

theorem enumFromIdx_keys : ∀ (ls : List String) (i : ℕ),
    (enumFromIdx i ls).map Prod.fst = (List.range ls.length).map (fun j => j + i) := by
  intro ls
  induction ls with
  | nil => intro i; rfl
  | cons l rest ih =>
      intro i
      rw [show enumFromIdx i (l :: rest) = (i, l) :: enumFromIdx (i + 1) rest
        from rfl]
      rw [List.map_cons, List.length_cons, List.range_succ_eq_map,
        List.map_cons, List.map_map, ih (i + 1)]
      congr 1
      · omega
      · apply List.map_congr_left
        intro a _
        simp [Function.comp]
        omega

theorem enumDict_keys (ls : List String) :
    (enumDict ls).map Prod.fst = List.range (enumDict ls).length := by
  unfold enumDict
  rw [enumFromIdx_keys ls 0, enumFromIdx_length ls 0]
  simp

theorem enumFromIdx_snd : ∀ (ls : List String) (i : ℕ),
    (enumFromIdx i ls).map Prod.snd = ls := by
  intro ls
  induction ls with
  | nil => intro i; rfl
  | cons l rest ih => intro i; simp [enumFromIdx, ih]

theorem enumDict_snd (ls : List String) : (enumDict ls).map Prod.snd = ls :=
  enumFromIdx_snd ls 0

theorem goodLabels_filter (ls : List String) (p : String → Bool)
    (h : goodLabels ls) : goodLabels (ls.filter p) := by
  obtain ⟨h1, h2, h3⟩ := h
  refine ⟨h1.filter p, ?_, ?_⟩
  · intro a ha b hb
    exact h2 a (List.mem_of_mem_filter ha) b (List.mem_of_mem_filter hb)
  · intro a ha
    exact h3 a (List.mem_of_mem_filter ha)

/-- A successful `_generate_imshow_extent` touches only `imshow_extent`. -/
theorem generate_frame {o o2 : Obj} (h : generateImshowExtent o = .ok o2) :
    ∀ n, n ≠ "imshow_extent" → getattr? o2 n = getattr? o n := by
  unfold generateImshowExtent at h
  split at h
  · exact Except.noConfusion h
  rename_i axv haxv
  split at h
  · exact Except.noConfusion h
  rename_i m hlen
  split at h
  · -- length-2 branch
    split at h
    · split at h
      · exact Except.noConfusion h
      · exact Except.noConfusion h
      rename_i l1 l0 hg1 hg0
      split at h
      · exact Except.noConfusion h
      rename_i mn1 ha1
      split at h
      · exact Except.noConfusion h
      rename_i mx1 ha2
      split at h
      · exact Except.noConfusion h
      rename_i st1 ha3
      split at h
      · exact Except.noConfusion h
      rename_i mn0 ha4
      split at h
      · exact Except.noConfusion h
      rename_i mx0 ha5
      split at h
      · exact Except.noConfusion h
      rename_i st0 ha6
      injection h with h
      subst h
      intro n hn
      simp [getattr?_setattr, hn]
    · exact Except.noConfusion h
  · split at h
    · injection h with h
      subst h
      intro n hn
      simp [getattr?_delattrPure, hn]
    · injection h with h
      subst h
      intro n _
      rfl

/-- Under well-formed descriptors, `_generate_imshow_extent` succeeds. -/
theorem generate_ok_of_wf (o : Obj) (d : List (ℕ × String))
    (hax : getattr? o "axes" = some (.axesDict d))
    (hkeys : d.map Prod.fst = List.range d.length)
    (hattrs : ∀ l ∈ d.map Prod.snd, wfAxisAttrs o l = true)
    (hne : ∀ l ∈ d.map Prod.snd, ∀ x ∈ descNames l, x ≠ "imshow_extent") :
    ∃ o2, generateImshowExtent o = .ok o2 := by
  unfold generateImshowExtent
  rw [hax]
  simp only [pyLen]
  by_cases h2 : d.length = 2
  · rw [if_pos h2]
    have hg1 : dictGet? d 1 = some ((d.map Prod.snd).getD 1 "") :=
      dictGet?_range d hkeys 1 (by omega)
    have hg0 : dictGet? d 0 = some ((d.map Prod.snd).getD 0 "") :=
      dictGet?_range d hkeys 0 (by omega)
    have hlen2 : (d.map Prod.snd).length = 2 := by simp [h2]
    have hm1 : (d.map Prod.snd).getD 1 "" ∈ d.map Prod.snd := by
      rw [List.getD_eq_get _ _ (by omega)]
      exact List.get_mem _ _ _
    have hm0 : (d.map Prod.snd).getD 0 "" ∈ d.map Prod.snd := by
      rw [List.getD_eq_get _ _ (by omega)]
      exact List.get_mem _ _ _
    obtain ⟨_, ⟨st1, hst1⟩, ⟨mn1, hmn1⟩, ⟨mx1, hmx1⟩⟩ :=
      wfAxisAttrs_spec (hattrs _ hm1)
    obtain ⟨_, ⟨st0, hst0⟩, ⟨mn0, hmn0⟩, ⟨mx0, hmx0⟩⟩ :=
      wfAxisAttrs_spec (hattrs _ hm0)
    have hne1 := hne _ hm1
    have hne0 := hne _ hm0
    have e1 := hne1 ((d.map Prod.snd).getD 1 "" ++ "min") (by simp [descNames])
    have e2 := hne1 ((d.map Prod.snd).getD 1 "" ++ "max") (by simp [descNames])
    have e3 := hne1 ("d" ++ (d.map Prod.snd).getD 1 "") (by simp [descNames])
    have e4 := hne0 ((d.map Prod.snd).getD 0 "" ++ "min") (by simp [descNames])
    have e5 := hne0 ((d.map Prod.snd).getD 0 "" ++ "max") (by simp [descNames])
    have e6 := hne0 ("d" ++ (d.map Prod.snd).getD 0 "") (by simp [descNames])
    have r1 : getNumAttrS (setattr o "imshow_extent" (.arr []))
        ((d.map Prod.snd).getD 1 "" ++ "min") = .ok mn1 := by
      unfold getNumAttrS
      rw [getattr?_setattr, if_neg e1, hmn1]
    have r2 : getNumAttrS (setattr o "imshow_extent" (.arr []))
        ((d.map Prod.snd).getD 1 "" ++ "max") = .ok mx1 := by
      unfold getNumAttrS
      rw [getattr?_setattr, if_neg e2, hmx1]
    have r3 : getNumAttrS (setattr o "imshow_extent" (.arr []))
        ("d" ++ (d.map Prod.snd).getD 1 "") = .ok st1 := by
      unfold getNumAttrS
      rw [getattr?_setattr, if_neg e3, hst1]
    have r4 : getNumAttrS (setattr (setattr o "imshow_extent" (.arr []))
        "imshow_extent" (.arr [mn1 - (1/2 : ℚ) * st1, mx1 + (1/2 : ℚ) * st1]))
        ((d.map Prod.snd).getD 0 "" ++ "min") = .ok mn0 := by
      unfold getNumAttrS
      rw [getattr?_setattr, if_neg e4, getattr?_setattr, if_neg e4, hmn0]
    have r5 : getNumAttrS (setattr (setattr o "imshow_extent" (.arr []))
        "imshow_extent" (.arr [mn1 - (1/2 : ℚ) * st1, mx1 + (1/2 : ℚ) * st1]))
        ((d.map Prod.snd).getD 0 "" ++ "max") = .ok mx0 := by
      unfold getNumAttrS
      rw [getattr?_setattr, if_neg e5, getattr?_setattr, if_neg e5, hmx0]
    have r6 : getNumAttrS (setattr (setattr o "imshow_extent" (.arr []))
        "imshow_extent" (.arr [mn1 - (1/2 : ℚ) * st1, mx1 + (1/2 : ℚ) * st1]))
        ("d" ++ (d.map Prod.snd).getD 0 "") = .ok st0 := by
      unfold getNumAttrS
      rw [getattr?_setattr, if_neg e6, getattr?_setattr, if_neg e6, hst0]
    refine ⟨setattr (setattr (setattr o "imshow_extent" (.arr []))
      "imshow_extent" (.arr [mn1 - (1/2 : ℚ) * st1, mx1 + (1/2 : ℚ) * st1]))
      "imshow_extent" (.arr [mn1 - (1/2 : ℚ) * st1, mx1 + (1/2 : ℚ) * st1,
        mn0 - (1/2 : ℚ) * st0, mx0 + (1/2 : ℚ) * st0]), ?_⟩
    simp only [hg1, hg0, r1, r2, r3, r4, r5, r6]
  · rw [if_neg h2]
    by_cases hh : hasattr o "imshow_extent"
    · rw [if_pos hh]
      exact ⟨_, rfl⟩
    · rw [if_neg hh]
      exact ⟨_, rfl⟩

/-- Full characterisation of `_remove_axis` on a well-formed state with an
active label: it succeeds, deletes the coordinate array and the `min`/`max`
attributes of the label but not its spacing attribute, leaves every other
attribute except `imshow_extent` unchanged, re-enumerates the remaining
labels contiguously from 0 in their prior order, and preserves
well-formedness. -/
theorem removeAxis_wf (o : Obj) (d : List (ℕ × String)) (l : String)
    (hax : getattr? o "axes" = some (.axesDict d))
    (hkeys : d.map Prod.fst = List.range d.length)
    (hgood : goodLabels (d.map Prod.snd))
    (hattrs : ∀ x ∈ d.map Prod.snd, wfAxisAttrs o x = true)
    (hmem : l ∈ d.map Prod.snd) :
    ∃ o2, removeAxis o l = .ok o2 ∧
      getattr? o2 l = none ∧
      getattr? o2 (l ++ "min") = none ∧
      getattr? o2 (l ++ "max") = none ∧
      getattr? o2 ("d" ++ l) = getattr? o ("d" ++ l) ∧
      (∀ n, n ∉ [l, l ++ "min", l ++ "max", "axes", "imshow_extent"] →
        getattr? o2 n = getattr? o n) ∧
      getattr? o2 "axes" = some (.axesDict (enumDict
        ((d.map Prod.snd).filter (fun x => decide (¬ x = l))))) ∧
      wfB o2 = true := by
  obtain ⟨hnodup, hcross, hself⟩ := hgood
  have h3 := hself l hmem
  have hnd := h3.1
  simp only [descNames, List.nodup_cons, List.mem_cons, List.mem_singleton,
    List.not_mem_nil, or_false, not_or, List.nodup_nil, and_true] at hnd
  obtain ⟨⟨q1, q2, q3⟩, ⟨q4, q5⟩, q6, -⟩ := hnd
  have ha_l : l ≠ "axes" := (h3.2 l (by simp [descNames])).1
  have he_l : l ≠ "imshow_extent" := (h3.2 l (by simp [descNames])).2
  have ha_d : "d" ++ l ≠ "axes" := (h3.2 ("d" ++ l) (by simp [descNames])).1
  have he_d : "d" ++ l ≠ "imshow_extent" :=
    (h3.2 ("d" ++ l) (by simp [descNames])).2
  have ha_min : l ++ "min" ≠ "axes" :=
    (h3.2 (l ++ "min") (by simp [descNames])).1
  have he_min : l ++ "min" ≠ "imshow_extent" :=
    (h3.2 (l ++ "min") (by simp [descNames])).2
  have ha_max : l ++ "max" ≠ "axes" :=
    (h3.2 (l ++ "max") (by simp [descNames])).1
  have he_max : l ++ "max" ≠ "imshow_extent" :=
    (h3.2 (l ++ "max") (by simp [descNames])).2
  obtain ⟨⟨lxs, hl⟩, ⟨ldq, hld⟩, ⟨lmn, hlmin⟩, ⟨lmx, hlmax⟩⟩ :=
    wfAxisAttrs_spec (hattrs l hmem)
  -- the three deletions succeed
  have hb1 : delattrS o l = .ok (delattrPure o l) := by
    simp [delattrS, hasattr, hl]
  have hb2 : delattrS (delattrPure o l) (l ++ "min") =
      .ok (delattrPure (delattrPure o l) (l ++ "min")) := by
    simp [delattrS, hasattr, hlmin, Ne.symm q2]
  have hb3 : delattrS (delattrPure (delattrPure o l) (l ++ "min")) (l ++ "max") =
      .ok (delattrPure (delattrPure (delattrPure o l) (l ++ "min"))
        (l ++ "max")) := by
    simp [delattrS, hasattr, hlmax, Ne.symm q3, Ne.symm q6]
  have hbx : getattr? (delattrPure (delattrPure (delattrPure o l) (l ++ "min"))
      (l ++ "max")) "axes" = some (.axesDict d) := by
    simp [Ne.symm ha_l, Ne.symm ha_min, Ne.symm ha_max, hax]
  have hcl := collectLabels_range (delattrPure (delattrPure (delattrPure o l)
    (l ++ "min")) (l ++ "max")) d hkeys
  have heval : removeAxis o l = generateImshowExtent
      (setattr (delattrPure (delattrPure (delattrPure o l) (l ++ "min"))
        (l ++ "max")) "axes" (.axesDict (enumDict
          ((d.map Prod.snd).filter (fun x => decide (¬ x = l)))))) := by
    simp only [removeAxis, hb1, hb2, hb3, hbx, hcl]
  -- well-formedness data for the post-removal state
  have hax4 : getattr? (setattr (delattrPure (delattrPure (delattrPure o l)
      (l ++ "min")) (l ++ "max")) "axes" (.axesDict (enumDict
        ((d.map Prod.snd).filter (fun x => decide (¬ x = l)))))) "axes" =
      some (.axesDict (enumDict
        ((d.map Prod.snd).filter (fun x => decide (¬ x = l))))) := by
    simp
  have hfr : ∀ x ∈ (d.map Prod.snd).filter (fun x => decide (¬ x = l)),
      ∀ nm ∈ descNames x,
      getattr? (setattr (delattrPure (delattrPure (delattrPure o l)
        (l ++ "min")) (l ++ "max")) "axes" (.axesDict (enumDict
          ((d.map Prod.snd).filter (fun x => decide (¬ x = l)))))) nm =
      getattr? o nm := by
    intro x hx nm hnm
    have hx1 : x ∈ d.map Prod.snd := (List.mem_filter.mp hx).1
    have hxl : x ≠ l := by
      have := (List.mem_filter.mp hx).2
      simpa using of_decide_eq_true this
    have hna : nm ≠ "axes" := ((hself x hx1).2 nm hnm).1
    have hcr := hcross x hx1 l hmem hxl nm hnm
    have hn_l : nm ≠ l := hcr l (by simp [descNames])
    have hn_min : nm ≠ l ++ "min" := hcr (l ++ "min") (by simp [descNames])
    have hn_max : nm ≠ l ++ "max" := hcr (l ++ "max") (by simp [descNames])
    simp [hna, hn_l, hn_min, hn_max]
  have hattrs4 : ∀ x ∈ (enumDict ((d.map Prod.snd).filter
      (fun x => decide (¬ x = l)))).map Prod.snd,
      wfAxisAttrs (setattr (delattrPure (delattrPure (delattrPure o l)
        (l ++ "min")) (l ++ "max")) "axes" (.axesDict (enumDict
          ((d.map Prod.snd).filter (fun x => decide (¬ x = l)))))) x = true := by
    rw [enumDict_snd]
    intro x hx
    have hx1 : x ∈ d.map Prod.snd := (List.mem_filter.mp hx).1
    have hthis := hattrs x hx1
    unfold wfAxisAttrs at hthis ⊢
    rw [hfr x hx x (by simp [descNames]), hfr x hx ("d" ++ x) (by simp [descNames]),
      hfr x hx (x ++ "min") (by simp [descNames]),
      hfr x hx (x ++ "max") (by simp [descNames])]
    exact hthis
  have hne4 : ∀ x ∈ (enumDict ((d.map Prod.snd).filter
      (fun x => decide (¬ x = l)))).map Prod.snd,
      ∀ nm ∈ descNames x, nm ≠ "imshow_extent" := by
    rw [enumDict_snd]
    intro x hx nm hnm
    exact ((hself x (List.mem_filter.mp hx).1).2 nm hnm).2
  obtain ⟨o2, hgen⟩ := generate_ok_of_wf _ _ hax4 (enumDict_keys _) hattrs4 hne4
  have gframe := generate_frame hgen
  have haxs2 : getattr? o2 "axes" = some (.axesDict (enumDict
      ((d.map Prod.snd).filter (fun x => decide (¬ x = l))))) := by
    rw [gframe "axes" (by decide)]
    simp
  refine ⟨o2, heval.trans hgen, ?_, ?_, ?_, ?_, ?_, haxs2, ?_⟩
  · rw [gframe l he_l]
    simp [ha_l, q2, q3]
  · rw [gframe (l ++ "min") he_min]
    simp [ha_min, q6]
  · rw [gframe (l ++ "max") he_max]
    simp [ha_max]
  · rw [gframe ("d" ++ l) he_d]
    simp [ha_d, Ne.symm q1, q4, q5]
  · intro n hn
    simp only [List.mem_cons, List.not_mem_nil, or_false, not_or] at hn
    obtain ⟨n1, n2, n3, n4, n5⟩ := hn
    rw [gframe n n5]
    simp [n1, n2, n3, n4]
  · have hattrs2 : ∀ x ∈ (d.map Prod.snd).filter (fun x => decide (¬ x = l)),
        wfAxisAttrs o2 x = true := by
      intro x hx
      have hx1 : x ∈ d.map Prod.snd := (List.mem_filter.mp hx).1
      have hthis := hattrs x hx1
      unfold wfAxisAttrs at hthis ⊢
      have hee := (hself x hx1).2
      rw [gframe x ((hee x (by simp [descNames])).2),
        gframe ("d" ++ x) ((hee ("d" ++ x) (by simp [descNames])).2),
        gframe (x ++ "min") ((hee (x ++ "min") (by simp [descNames])).2),
        gframe (x ++ "max") ((hee (x ++ "max") (by simp [descNames])).2),
        hfr x hx x (by simp [descNames]), hfr x hx ("d" ++ x) (by simp [descNames]),
        hfr x hx (x ++ "min") (by simp [descNames]),
        hfr x hx (x ++ "max") (by simp [descNames])]
      exact hthis
    have haxv2 : axesOf? o2 = some (enumDict
        ((d.map Prod.snd).filter (fun x => decide (¬ x = l)))) := by
      unfold axesOf?
      rw [haxs2]
    simp only [wfB, haxv2]
    rw [Bool.and_eq_true_iff]
    constructor
    · rw [Bool.and_eq_true_iff]
      constructor
      · exact decide_eq_true (enumDict_keys _)
      · exact decide_eq_true (by
          rw [enumDict_snd]
          exact goodLabels_filter _ _ ⟨hnodup, hcross, hself⟩)
    · rw [List.all_eq_true]
      rw [enumDict_snd]
      intro x hx
      exact hattrs2 x hx

/-! ## Unpacking well-formedness -/

theorem axesOf?_some {o : Obj} {d : List (ℕ × String)}
    (h : axesOf? o = some d) : getattr? o "axes" = some (.axesDict d) := by
  unfold axesOf? at h
  cases hx : getattr? o "axes" with
  | none => rw [hx] at h; cases h
  | some v =>
      cases v with
      | axesDict d2 =>
          rw [hx] at h
          injection h with h
          subst h
          rfl
      | num q => rw [hx] at h; cases h
      | int z => rw [hx] at h; cases h
      | idx n => rw [hx] at h; cases h
      | arr xs => rw [hx] at h; cases h
      | iarr zs => rw [hx] at h; cases h

theorem wfB_spec {o : Obj} (h : wfB o = true) :
    ∃ d, axesOf? o = some d ∧ getattr? o "axes" = some (.axesDict d) ∧
      d.map Prod.fst = List.range d.length ∧ goodLabels (d.map Prod.snd) ∧
      ∀ x ∈ d.map Prod.snd, wfAxisAttrs o x = true := by
  unfold wfB at h
  cases haxv : axesOf? o with
  | none => rw [haxv] at h; cases h
  | some d =>
      rw [haxv] at h
      have h1 := Bool.and_eq_true_iff.mp h
      have h2 := Bool.and_eq_true_iff.mp h1.1
      exact ⟨d, rfl, axesOf?_some haxv, of_decide_eq_true h2.1,
        of_decide_eq_true h2.2, List.all_eq_true.mp h1.2⟩

theorem cylPattern_r_mem {d : List (ℕ × String)} (h : cylPattern d = true) :
    "r" ∈ d.map Prod.snd := by
  unfold cylPattern at h
  cases h0 : dictGet? d 0 with
  | none => rw [h0] at h; cases h1 : dictGet? d 1 <;> rw [h1] at h <;> cases h
  | some a =>
      cases h1 : dictGet? d 1 with
      | none => rw [h0, h1] at h; cases h
      | some b =>
          rw [h0, h1] at h
          rcases Bool.or_eq_true_iff.mp h with hc | hc
          · have := Bool.and_eq_true_iff.mp hc
            have ha : a = "r" := of_decide_eq_true this.1
            exact ha ▸ dictGet?_mem h0
          · have := Bool.and_eq_true_iff.mp hc
            have hb : b = "r" := of_decide_eq_true this.2
            exact hb ▸ dictGet?_mem h1

/-- The loop of `restrict_to_1Daxis` succeeds on a well-formed state when
every label to process is active (or is the kept label). -/
theorem removeLoop_ok : ∀ (todo : List String) (o : Obj) (keep : String),
    wfB o = true → (∀ x ∈ todo, x ≠ keep → x ∈ activeLabels o) →
    todo.Nodup →
    ∃ o2, removeLoop o todo keep = .ok o2 := by
  intro todo
  induction todo with
  | nil => intro o keep _ _ _; exact ⟨o, rfl⟩
  | cons l ls ih =>
      intro o keep hwf hact hnd
      unfold removeLoop
      by_cases hl : l = keep
      · rw [if_pos hl]
        exact ih o keep hwf
          (fun x hx hxk => hact x (List.mem_cons_of_mem _ hx) hxk) hnd.of_cons
      · rw [if_neg hl]
        obtain ⟨d, haxv, hax, hkeys, hgood, hattrs⟩ := wfB_spec hwf
        have hmem : l ∈ d.map Prod.snd := by
          have h := hact l (List.mem_cons_self _ _) hl
          unfold activeLabels at h
          rw [haxv] at h
          exact h
        obtain ⟨o1, hok, _, _, _, _, _, haxs1, hwf1⟩ :=
          removeAxis_wf o d l hax hkeys hgood hattrs hmem
        rw [hok]
        have haxv1 : axesOf? o1 = some (enumDict
            ((d.map Prod.snd).filter (fun x => decide (¬ x = l)))) := by
          unfold axesOf?
          rw [haxs1]
        have hln : l ∉ ls := (List.nodup_cons.mp hnd).1
        apply ih o1 keep hwf1
        · intro x hx hxk
          simp only [activeLabels, haxv1, enumDict_snd]
          apply List.mem_filter.mpr
          constructor
          · have h := hact x (List.mem_cons_of_mem _ hx) hxk
            unfold activeLabels at h
            rw [haxv] at h
            exact h
          · have hxl : x ≠ l := by
              intro he
              exact hln (he ▸ hx)
            exact decide_eq_true hxl
        · exact hnd.of_cons

/-! ## Claim C8: `_remove_axis` -/

/-- A two-axis well-formed state (no extent stored). -/
def demoObjXY : Obj := ⟨[("axes", .axesDict [(0, "x"), (1, "y")]),
  ("x", .arr [0, 1]), ("dx", .num 1), ("xmin", .num 0), ("xmax", .num 1),
  ("y", .arr [0, 1]), ("dy", .num 1), ("ymin", .num 0), ("ymax", .num 1)]⟩

/-- **C8 counterexample**: the claim says `RemoveAxis(L)` deletes every
component of `L`'s descriptor, including its spacing.  Removing `y` from a
two-axis state succeeds and deletes the array, min and max, but the spacing
attribute `dy` survives: the source never deletes `'d' + label`. -/
theorem C8_counterexample :
    (removeAxis demoObjXY "y").isOk = true ∧
    okGet (removeAxis demoObjXY "y") "y" = none ∧
    okGet (removeAxis demoObjXY "y") "dy" = some (.num 1) := by
  refine ⟨?_, ?_, ?_⟩ <;> decide

/-- **C8 amended** (corrected no more than the counterexample forces): on a
well-formed state, `RemoveAxis(L)` for an active label `L` succeeds; it
deletes `L`'s coordinate array, min and max attributes but leaves the
spacing attribute `d<L>` in place; every attribute of the other axes (and
every attribute other than `L`'s deleted ones, `axes` and `imshow_extent`)
is unchanged; and the axis ordering is rebuilt over the remaining labels in
their prior relative order with contiguous indices starting at 0. -/
theorem C8_remove_axis_amended (o : Obj) (l : String)
    (hwf : wfB o = true) (hmem : l ∈ activeLabels o) :
    ∃ o2, removeAxis o l = .ok o2 ∧
      getattr? o2 l = none ∧
      getattr? o2 (l ++ "min") = none ∧
      getattr? o2 (l ++ "max") = none ∧
      getattr? o2 ("d" ++ l) = getattr? o ("d" ++ l) ∧
      (∀ n, n ∉ [l, l ++ "min", l ++ "max", "axes", "imshow_extent"] →
        getattr? o2 n = getattr? o n) ∧
      getattr? o2 "axes" = some (.axesDict (enumDict
        ((activeLabels o).filter (fun x => decide (¬ x = l))))) := by
  obtain ⟨d, haxv, hax, hkeys, hgood, hattrs⟩ := wfB_spec hwf
  have hmem2 : l ∈ d.map Prod.snd := by
    simpa only [activeLabels, haxv] using hmem
  obtain ⟨o2, hok, h1, h2, h3, h4, h5, h6, _⟩ :=
    removeAxis_wf o d l hax hkeys hgood hattrs hmem2
  have hal : activeLabels o = d.map Prod.snd := by
    simp only [activeLabels, haxv]
  exact ⟨o2, hok, h1, h2, h3, h4, h5, by rw [hal]; exact h6⟩

theorem C8_remove_axis_amended_witness :
    okGet (removeAxis demoObj3 "y") "dy" = some (.num 1) ∧
    okGet (removeAxis demoObj3 "y") "y" = none ∧
    okGet (removeAxis demoObj3 "y") "axes" =
      some (.axesDict [(0, "x"), (1, "z")]) := by
  obtain ⟨o2, hok, hy, hymin, hymax, hdy, hframe, haxs⟩ :=
    C8_remove_axis_amended demoObj3 "y" (by decide) (by decide)
  have hdy2 : getattr? o2 "dy" = some (.num 1) := by
    have hval : getattr? demoObj3 ("d" ++ "y") = some (.num 1) := by decide
    rw [hval] at hdy
    exact hdy
  have haxs2 : getattr? o2 "axes" =
      some (.axesDict [(0, "x"), (1, "z")]) := by
    have hlist : enumDict ((activeLabels demoObj3).filter
        (fun x => decide (¬ x = "y"))) = [(0, "x"), (1, "z")] := by decide
    rw [hlist] at haxs
    exact haxs
  refine ⟨?_, ?_, ?_⟩
  · rw [show okGet (removeAxis demoObj3 "y") "dy" = getattr? o2 "dy"
      by rw [hok]; exact rfl]
    exact hdy2
  · rw [show okGet (removeAxis demoObj3 "y") "y" = getattr? o2 "y"
      by rw [hok]; exact rfl]
    exact hy
  · rw [show okGet (removeAxis demoObj3 "y") "axes" = getattr? o2 "axes"
      by rw [hok]; exact rfl]
    exact haxs2

/-! ## Which failures raise the domain-specific exception

The lemmas below show that the domain-specific `OpenPMDException` can only
arise from `_find_output`, and there only in its two validation failures:
every other operation, and every other failure path of `_find_output`,
raises one of Python's generic exception kinds. -/

/-- Is this error kind the domain-specific `OpenPMDException`? -/
def isOpenPMD : PyError → Bool
  | .openPMDException _ => true
  | _ => false

/-- The domain exception is never the error kind `false` says it is. -/
theorem not_openPMD_elim {m : String} {C : Prop}
    (h : isOpenPMD (.openPMDException m) = false) : C :=
  Bool.noConfusion h

/-- `raisesOpenPMD` on an error is `isOpenPMD` of its kind. -/
theorem raisesOpenPMD_eq_isOpenPMD (p : PyError × Obj) :
    raisesOpenPMD (Except.error p) = isOpenPMD p.1 := by
  rcases p with ⟨e, s⟩
  cases e <;> rfl

/-- `asIdx` only raises `IndexError`. -/
theorem asIdx_not_openPMD {v : Value} {e : PyError} (h : asIdx v = .error e) :
    isOpenPMD e = false := by
  cases v <;> simp only [asIdx] at h <;>
    first
      | exact Except.noConfusion h
      | (injection h with h; subst h; rfl)

/-- `pyIndex` only raises `IndexError` or `TypeError`. -/
theorem pyIndex_not_openPMD {v : Value} {i : ℕ} {e : PyError}
    (h : pyIndex v i = .error e) : isOpenPMD e = false := by
  cases v <;> simp only [pyIndex] at h <;> repeat' split at h
  all_goals first
    | exact Except.noConfusion h
    | (injection h with h; subst h; rfl)

/-- `pyLtQ` only raises `ValueError` or `TypeError`. -/
theorem pyLtQ_not_openPMD {a : ℚ} {v : Value} {e : PyError}
    (h : pyLtQ a v = .error e) : isOpenPMD e = false := by
  cases v <;> simp only [pyLtQ] at h <;> repeat' split at h
  all_goals first
    | exact Except.noConfusion h
    | (injection h with h; subst h; rfl)

/-- `pyGtQ` only raises `ValueError` or `TypeError`. -/
theorem pyGtQ_not_openPMD {a : ℚ} {v : Value} {e : PyError}
    (h : pyGtQ a v = .error e) : isOpenPMD e = false := by
  cases v <;> simp only [pyGtQ] at h <;> repeat' split at h
  all_goals first
    | exact Except.noConfusion h
    | (injection h with h; subst h; rfl)

/-- `pyLen` only raises `TypeError`. -/
theorem pyLen_not_openPMD {v : Value} {e : PyError} (h : pyLen v = .error e) :
    isOpenPMD e = false := by
  cases v <;> simp only [pyLen] at h <;>
    first
      | exact Except.noConfusion h
      | (injection h with h; subst h; rfl)

/-- `asQList` only raises `TypeError`. -/
theorem asQList_not_openPMD {v : Value} {e : PyError}
    (h : asQList v = .error e) : isOpenPMD e = false := by
  cases v <;> simp only [asQList] at h <;>
    first
      | exact Except.noConfusion h
      | (injection h with h; subst h; rfl)

/-- `asZList` only raises `TypeError`. -/
theorem asZList_not_openPMD {v : Value} {e : PyError}
    (h : asZList v = .error e) : isOpenPMD e = false := by
  cases v <;> simp only [asZList] at h <;>
    first
      | exact Except.noConfusion h
      | (injection h with h; subst h; rfl)

/-- List indexing only raises `IndexError`. -/
theorem pyListGetQ_not_openPMD {xs : List ℚ} {i : ℕ} {e : PyError}
    (h : pyListGetQ xs i = .error e) : isOpenPMD e = false := by
  unfold pyListGetQ at h
  split at h
  · exact Except.noConfusion h
  · injection h with h; subst h; rfl

theorem pyListGetN_not_openPMD {xs : List ℕ} {i : ℕ} {e : PyError}
    (h : pyListGetN xs i = .error e) : isOpenPMD e = false := by
  unfold pyListGetN at h
  split at h
  · exact Except.noConfusion h
  · injection h with h; subst h; rfl

/-- `setattr` with a float attribute "name" only raises `TypeError`. -/
theorem setattrDynQ_not_openPMD {o : Obj} {n : Option ℚ} {v : Value}
    {e : PyError} (h : setattrDynQ o n v = .error e) : isOpenPMD e = false := by
  unfold setattrDynQ at h
  injection h with h; subst h; rfl

theorem setattrDynZ_not_openPMD {o : Obj} {n : Option ℤ} {v : Value}
    {e : PyError} (h : setattrDynZ o n v = .error e) : isOpenPMD e = false := by
  unfold setattrDynZ at h
  injection h with h; subst h; rfl

/-- Reading a stored attribute only raises `AttributeError`. -/
theorem getAttrS_not_openPMD {o : Obj} {n : String} {p : PyError × Obj}
    (h : getAttrS o n = .error p) : isOpenPMD p.1 = false := by
  unfold getAttrS at h
  split at h
  · exact Except.noConfusion h
  · injection h with h; subst h; rfl

/-- Reading a scalar attribute only raises `TypeError` or `AttributeError`. -/
theorem getNumAttrS_not_openPMD {o : Obj} {n : String} {p : PyError × Obj}
    (h : getNumAttrS o n = .error p) : isOpenPMD p.1 = false := by
  unfold getNumAttrS at h
  repeat' split at h
  all_goals first
    | exact Except.noConfusion h
    | (injection h with h; subst h; rfl)

/-- `delattr` only raises `AttributeError`. -/
theorem delattrS_not_openPMD {o : Obj} {n : String} {p : PyError × Obj}
    (h : delattrS o n = .error p) : isOpenPMD p.1 = false := by
  unfold delattrS at h
  split at h
  · exact Except.noConfusion h
  · injection h with h; subst h; rfl

/-- The label-collection loop of `_remove_axis` only raises `KeyError`. -/
theorem collectLabels_not_openPMD {o : Obj} {d : List (ℕ × String)}
    {ks : List ℕ} {p : PyError × Obj}
    (h : collectLabels o d ks = .error p) : isOpenPMD p.1 = false := by
  revert h
  induction ks with
  | nil => intro h; exact Except.noConfusion h
  | cons k ks ih =>
      intro h
      unfold collectLabels at h
      repeat' split at h
      all_goals first
        | exact Except.noConfusion h
        | (injection h with h; subst h; first | rfl | exact ih (by assumption))

/-- The tail of `_find_output` never raises the domain exception. -/
theorem registerCurrent_not_openPMD {o : Obj} {e : PyError}
    (h : registerCurrent o = .error e) : isOpenPMD e = false := by
  simp only [registerCurrent] at h
  repeat' split at h
  all_goals first
    | exact Except.noConfusion h
    | (injection h with h; subst h
       first
         | rfl
         | exact asIdx_not_openPMD (by assumption)
         | exact pyIndex_not_openPMD (by assumption))

/-- `_generate_imshow_extent` never raises the domain exception. -/
theorem genExtent_not_openPMD (o : Obj) :
    raisesOpenPMD (generateImshowExtent o) = false := by
  unfold generateImshowExtent
  repeat' split
  all_goals first
    | rfl
    | (rw [raisesOpenPMD_eq_isOpenPMD]
       first
         | exact getNumAttrS_not_openPMD (by assumption)
         | exact pyLen_not_openPMD (by assumption))

/-- `_generate_imshow_extent`, error form. -/
theorem genExtent_err_not_openPMD {o : Obj} {p : PyError × Obj}
    (h : generateImshowExtent o = .error p) : isOpenPMD p.1 = false := by
  have h2 := genExtent_not_openPMD o
  rw [h, raisesOpenPMD_eq_isOpenPMD] at h2
  exact h2

/-- `_remove_axis` never raises the domain exception. -/
theorem removeAxis_not_openPMD (o : Obj) (l : String) :
    raisesOpenPMD (removeAxis o l) = false := by
  unfold removeAxis
  repeat' split
  all_goals first
    | rfl
    | exact genExtent_not_openPMD _
    | (rw [raisesOpenPMD_eq_isOpenPMD]
       first
         | exact delattrS_not_openPMD (by assumption)
         | exact collectLabels_not_openPMD (by assumption))

/-- The removal loop of `restrict_to_1Daxis` never raises the domain
exception. -/
theorem removeLoop_not_openPMD (ls : List String) :
    ∀ (o : Obj) (keep : String), raisesOpenPMD (removeLoop o ls keep) = false := by
  induction ls with
  | nil => intro o keep; rfl
  | cons l ls ih =>
      intro o keep
      unfold removeLoop
      split
      · exact ih o keep
      · split
        · rename_i e heq
          rw [← heq]
          exact removeAxis_not_openPMD o l
        · rename_i o2 heq
          exact ih o2 keep

/-- `restrict_to_1Daxis` never raises the domain exception. -/
theorem restrict_not_openPMD (o : Obj) (axis : String) :
    raisesOpenPMD (restrictTo1Daxis o axis) = false := by
  unfold restrictTo1Daxis
  repeat' split
  all_goals first
    | rfl
    | exact removeLoop_not_openPMD _ _ _

/-- `_convert_cylindrical_to_3Dcartesian` never raises the domain
exception. -/
theorem convert_not_openPMD (o : Obj) :
    raisesOpenPMD (convertCylindricalTo3DCartesian o) = false := by
  unfold convertCylindricalTo3DCartesian
  split
  · rfl
  · split
    · rename_i d hd hpat
      rcases hA : getAttrS o "r" with eA | rv
      · simp only [hA]
        rw [raisesOpenPMD_eq_isOpenPMD]
        exact getAttrS_not_openPMD hA
      · simp only [hA]
        rcases hB : delattrS (setattr (setattr o "x" rv) "y" rv) "r" with eB | oB
        · simp only [hB]
          rw [raisesOpenPMD_eq_isOpenPMD]
          exact delattrS_not_openPMD hB
        · simp only [hB]
          rcases hC : getAttrS oB "dr" with eC | drv
          · simp only [hC]
            rw [raisesOpenPMD_eq_isOpenPMD]
            exact getAttrS_not_openPMD hC
          · simp only [hC]
            rcases hD : delattrS (setattr (setattr oB "dx" drv) "dy" drv) "dr"
              with eD | oD
            · simp only [hD]
              rw [raisesOpenPMD_eq_isOpenPMD]
              exact delattrS_not_openPMD hD
            · simp only [hD]
              rcases hE : getAttrS oD "rmin" with eE | rminv
              · simp only [hE]
                rw [raisesOpenPMD_eq_isOpenPMD]
                exact getAttrS_not_openPMD hE
              · simp only [hE]
                rcases hF : delattrS (setattr (setattr oD "xmin" rminv)
                    "ymin" rminv) "rmin" with eF | oF
                · simp only [hF]
                  rw [raisesOpenPMD_eq_isOpenPMD]
                  exact delattrS_not_openPMD hF
                · simp only [hF]
                  rcases hG : getAttrS oF "rmax" with eG | rmaxv
                  · simp only [hG]
                    rw [raisesOpenPMD_eq_isOpenPMD]
                    exact getAttrS_not_openPMD hG
                  · simp only [hG]
                    rcases hH : delattrS (setattr (setattr oF "xmax" rmaxv)
                        "ymax" rmaxv) "rmax" with eH | oH
                    · simp only [hH]
                      rw [raisesOpenPMD_eq_isOpenPMD]
                      exact delattrS_not_openPMD hH
                    · simp only [hH]
                      rfl
    · rfl
  · split <;> rfl
  · split <;> rfl
  · rfl

/-- Where `_find_output` can raise the domain exception: only in its two
validation failures — both arguments supplied, or the requested iteration
absent from the iterations array — with the corresponding verbatim
message. -/
theorem findOutput_openPMD_cases (o : Obj) (t : Option ℚ) (it : Option ℤ)
    (m : String) (h : findOutput o t it = .error (.openPMDException m)) :
    (∃ tv itv, t = some tv ∧ it = some itv ∧ m = bothMsg) ∨
    (t = none ∧ ∃ itv itval its, it = some itv ∧
      getattr? o "iterations" = some itval ∧ asZList itval = .ok its ∧
      itv ∉ its ∧ m = iterMissingMsg itv its) := by
  unfold findOutput at h
  split at h
  · rename_i tv itv
    injection h with h
    injection h with h
    exact Or.inl ⟨tv, itv, rfl, rfl, h.symm⟩
  · repeat' split at h
    all_goals first
      | (injection h with h; exact PyError.noConfusion h)
      | exact not_openPMD_elim (registerCurrent_not_openPMD h)
      | (injection h with h; subst h
         first
           | exact not_openPMD_elim (pyLtQ_not_openPMD (by assumption))
           | exact not_openPMD_elim (pyGtQ_not_openPMD (by assumption))
           | exact not_openPMD_elim (pyLen_not_openPMD (by assumption))
           | exact not_openPMD_elim (asQList_not_openPMD (by assumption)))
  · rename_i itv
    split at h
    · injection h with h; exact PyError.noConfusion h
    · rename_i itval hgetit
      split at h
      · rename_i e2 heqz
        injection h with h; subst h
        exact not_openPMD_elim (asZList_not_openPMD heqz)
      · rename_i its heqz
        split at h
        · exact not_openPMD_elim (registerCurrent_not_openPMD h)
        · rename_i hnot
          injection h with h
          injection h with h
          exact Or.inr ⟨rfl, itv, itval, its, rfl, hgetit, heqz, hnot, h.symm⟩
  · exact not_openPMD_elim (registerCurrent_not_openPMD h)

/-- One pass of the constructor's axis loop never raises the domain
exception. -/
theorem buildAxis_not_openPMD {g : RawGrid} {o : Obj} {axis : ℕ}
    {e : PyError} (h : buildAxis g o axis = .error e) : isOpenPMD e = false := by
  simp only [buildAxis] at h
  repeat' split at h
  all_goals first
    | exact Except.noConfusion h
    | (injection h with h; subst h
       first
         | rfl
         | exact pyListGetQ_not_openPMD (by assumption)
         | exact pyListGetN_not_openPMD (by assumption))

/-- The constructor's axis loop never raises the domain exception. -/
theorem buildAxesLoop_not_openPMD {g : RawGrid} {ks : List ℕ} :
    ∀ {o : Obj} {e : PyError}, buildAxesLoop g o ks = .error e →
      isOpenPMD e = false := by
  induction ks with
  | nil => intro o e h; exact Except.noConfusion h
  | cons k ks ih =>
      intro o e h
      unfold buildAxesLoop at h
      split at h
      · rename_i e2 heq
        injection h with h; subst h
        exact buildAxis_not_openPMD heq
      · rename_i o2 heq
        exact ih h

/-- The axis-construction phase never raises the domain exception. -/
theorem buildAxes_not_openPMD {g : RawGrid} {e : PyError}
    (h : buildAxes g = .error e) : isOpenPMD e = false := by
  unfold buildAxes at h
  exact buildAxesLoop_not_openPMD h

/-- Where `__init__` can raise the domain exception: only through
`_find_output`, after the axis phase succeeded. -/
theorem init_openPMD_cases (g : RawGrid) (t : Option ℚ) (it : Option ℤ)
    (m : String) (h : init g t it = .error (.openPMDException m)) :
    ∃ o, buildAxes g = .ok o ∧
      findOutput o t it = .error (.openPMDException m) := by
  unfold init at h
  split at h
  · rename_i e2 heq
    injection h with h; subst h
    exact not_openPMD_elim (buildAxes_not_openPMD heq)
  · rename_i o hbuild
    split at h
    · rename_i e2 hfind
      injection h with h; subst h
      exact ⟨o, hbuild, hfind⟩
    · rename_i o2 hfind
      repeat' split at h
      all_goals first
        | exact Except.noConfusion h
        | (injection h with h; exact PyError.noConfusion h)
        | (injection h with h
           exact not_openPMD_elim (h ▸ genExtent_err_not_openPMD (by assumption)))
        | (injection h with h; subst h
           first
             | exact not_openPMD_elim (asIdx_not_openPMD (by assumption))
             | exact not_openPMD_elim (pyIndex_not_openPMD (by assumption))
             | exact not_openPMD_elim (setattrDynQ_not_openPMD (by assumption))
             | exact not_openPMD_elim (setattrDynZ_not_openPMD (by assumption)))

/-! ## Claim C9: which failures raise the domain-specific exception -/

/-- **C9 counterexample**: the claim says every validation failure —
including an invalid restriction label and an invalid Cartesian conversion —
raises the single domain-specific `OpenPMDException`.  But
`restrict_to_1Daxis` and `_convert_cylindrical_to_3Dcartesian` raise a plain
`ValueError` on their validation failures. -/
theorem C9_counterexample :
    (restrictTo1Daxis demoObjXY "q").isOk = false ∧
    raisesOpenPMD (restrictTo1Daxis demoObjXY "q") = false ∧
    (convertCylindricalTo3DCartesian demoObjXY).isOk = false ∧
    raisesOpenPMD (convertCylindricalTo3DCartesian demoObjXY) = false := by
  refine ⟨?_, ?_, ?_, ?_⟩ <;> decide

/-- **C9 amended** (corrected no more than the counterexample forces): the
two index-resolution failures (both `t` and `iteration` supplied; requested
iteration absent) raise the domain-specific `OpenPMDException`, and no other
case raises it — `_find_output` raises it only in exactly those two cases,
the constructor only through `_find_output`, and `restrict_to_1Daxis`,
`_convert_cylindrical_to_3Dcartesian`, `_remove_axis` and
`_generate_imshow_extent` never raise it; in particular the invalid
restriction label and the invalid Cartesian conversion raise the generic
`ValueError`, so the four validation failures do not share the single
domain-specific exception kind. -/
theorem C9_error_kinds_amended :
    (∀ (o : Obj) (tv : ℚ) (itv : ℤ),
      findOutput o (some tv) (some itv) =
        .error (.openPMDException bothMsg)) ∧
    (∀ (o : Obj) (its : List ℤ) (itv : ℤ),
      getattr? o "iterations" = some (.iarr its) → itv ∉ its →
      findOutput o none (some itv) =
        .error (.openPMDException (iterMissingMsg itv its))) ∧
    (∀ (o : Obj) (d : List (ℕ × String)) (axis : String),
      getattr? o "axes" = some (.axesDict d) → axis ∉ d.map Prod.snd →
      restrictTo1Daxis o axis = .error (.valueError restrictMsg, o)) ∧
    (∀ (o : Obj) (d : List (ℕ × String)),
      getattr? o "axes" = some (.axesDict d) → cylPattern d = false →
      convertCylindricalTo3DCartesian o =
        .error (.valueError convertMsg, o)) ∧
    (∀ (o : Obj) (t : Option ℚ) (it : Option ℤ) (m : String),
      findOutput o t it = .error (.openPMDException m) →
        (∃ tv itv, t = some tv ∧ it = some itv ∧ m = bothMsg) ∨
        (t = none ∧ ∃ itv itval its, it = some itv ∧
          getattr? o "iterations" = some itval ∧ asZList itval = .ok its ∧
          itv ∉ its ∧ m = iterMissingMsg itv its)) ∧
    (∀ (o : Obj) (axis : String),
      raisesOpenPMD (restrictTo1Daxis o axis) = false) ∧
    (∀ (o : Obj),
      raisesOpenPMD (convertCylindricalTo3DCartesian o) = false) ∧
    (∀ (o : Obj) (l : String), raisesOpenPMD (removeAxis o l) = false) ∧
    (∀ (o : Obj), raisesOpenPMD (generateImshowExtent o) = false) ∧
    (∀ (g : RawGrid) (t : Option ℚ) (it : Option ℤ) (m : String),
      init g t it = .error (.openPMDException m) →
        ∃ o, buildAxes g = .ok o ∧
          findOutput o t it = .error (.openPMDException m)) := by
  refine ⟨fun o tv itv => rfl, ?_, ?_, ?_, findOutput_openPMD_cases,
    restrict_not_openPMD, convert_not_openPMD, removeAxis_not_openPMD,
    genExtent_not_openPMD, init_openPMD_cases⟩
  · intro o its itv hits hnmem
    unfold findOutput
    simp only [hits, asZList]
    rw [if_neg hnmem]
  · intro o d axis hax hnmem
    simp only [restrictTo1Daxis, hax]
    rw [if_neg hnmem]
  · intro o d hax hpat
    simp [convertCylindricalTo3DCartesian, hax, hpat]

/-- A state holding parallel time/iteration arrays (as the genuine upstream
`OpenPMDTimeSeries` object would). -/
def demoObjT : Obj := ⟨[("t", .arr [0, 1, 2]),
  ("tmin", .num (npMin [0, 1, 2])), ("tmax", .num (npMax [0, 1, 2])),
  ("iterations", .iarr [0, 10, 20])]⟩

theorem C9_error_kinds_amended_witness :
    (findOutput demoObjT (some 0) (some 0) =
      .error (.openPMDException bothMsg)) ∧
    (findOutput demoObjT none (some 5) =
      .error (.openPMDException (iterMissingMsg 5 [0, 10, 20]))) ∧
    (restrictTo1Daxis demoObjXY "q" =
      .error (.valueError restrictMsg, demoObjXY)) ∧
    (convertCylindricalTo3DCartesian demoObjXY =
      .error (.valueError convertMsg, demoObjXY)) ∧
    ((∃ tv itv, some (0 : ℚ) = some tv ∧ some (0 : ℤ) = some itv ∧
        bothMsg = bothMsg) ∨
      (some (0 : ℚ) = none ∧ ∃ itv itval its, some (0 : ℤ) = some itv ∧
        getattr? demoObjT "iterations" = some itval ∧
        asZList itval = .ok its ∧ itv ∉ its ∧
        bothMsg = iterMissingMsg itv its)) ∧
    (raisesOpenPMD (restrictTo1Daxis demoObjXY "q") = false) ∧
    (raisesOpenPMD (convertCylindricalTo3DCartesian demoObjXY) = false) ∧
    (raisesOpenPMD (removeAxis demoObjXY "y") = false) ∧
    (raisesOpenPMD (generateImshowExtent demoObjXY) = false) ∧
    (∃ o, buildAxes ⟨[], [], [], [], 1, [], false⟩ = .ok o ∧
      findOutput o (some 0) (some 0) =
        .error (.openPMDException bothMsg)) := by
  obtain ⟨h1, h2, h3, h4, h5, h6, h7, h8, h9, h10⟩ := C9_error_kinds_amended
  exact ⟨h1 demoObjT 0 0, h2 demoObjT [0, 10, 20] 5 rfl (by decide),
    h3 demoObjXY [(0, "x"), (1, "y")] "q" rfl (by decide),
    h4 demoObjXY [(0, "x"), (1, "y")] rfl (by decide),
    h5 demoObjT (some 0) (some 0) bothMsg (h1 demoObjT 0 0),
    h6 demoObjXY "q", h7 demoObjXY, h8 demoObjXY "y", h9 demoObjXY,
    h10 ⟨[], [], [], [], 1, [], false⟩ (some 0) (some 0) bothMsg rfl⟩

/-! ## Claim C10: validate-then-mutate -/

/-- **C10** (confirmed): on a well-formed state, `restrict_to_1Daxis` and
`_convert_cylindrical_to_3Dcartesian` validate strictly before mutating:
whenever either raises, the object state carried at the exception is exactly
the state before the call (the only failures are the precondition failures,
raised before any mutation). -/
theorem C10_validate_then_mutate (o : Obj) (axis : String)
    (hwf : wfB o = true) :
    errStateD (restrictTo1Daxis o axis) o = o ∧
    errStateD (convertCylindricalTo3DCartesian o) o = o := by
  obtain ⟨d, haxv, hax, hkeys, hgood, hattrs⟩ := wfB_spec hwf
  constructor
  · by_cases hmem : axis ∈ d.map Prod.snd
    · obtain ⟨o2, hok⟩ := removeLoop_ok (d.map Prod.snd) o axis hwf
        (fun x hx _ => by simpa only [activeLabels, haxv] using hx) hgood.1
      have hres : restrictTo1Daxis o axis = .ok o2 := by
        simp only [restrictTo1Daxis, hax]
        rw [if_pos hmem]
        exact hok
      rw [hres]
      exact rfl
    · have hres : restrictTo1Daxis o axis =
          .error (.valueError restrictMsg, o) := by
        simp only [restrictTo1Daxis, hax]
        rw [if_neg hmem]
      rw [hres]
      exact rfl
  · by_cases hpat : cylPattern d = true
    · have hrm := cylPattern_r_mem hpat
      obtain ⟨⟨rxs, hr⟩, ⟨rdq, hdr⟩, ⟨rmn, hrmin⟩, ⟨rmx, hrmax⟩⟩ :=
        wfAxisAttrs_spec (hattrs "r" hrm)
      have hdr2 : getattr? o "dr" = some (.num rdq) := hdr
      have hrmin2 : getattr? o "rmin" = some (.num rmn) := hrmin
      have hrmax2 : getattr? o "rmax" = some (.num rmx) := hrmax
      obtain ⟨o2, hok, _⟩ := convert_ok_spec o d (.arr rxs) (.num rdq)
        (.num rmn) (.num rmx) hax hpat hr hdr2 hrmin2 hrmax2
      rw [hok]
      exact rfl
    · have hpat2 : cylPattern d = false := by
        cases hc : cylPattern d
        · rfl
        · exact absurd hc hpat
      have hres : convertCylindricalTo3DCartesian o =
          .error (.valueError convertMsg, o) := by
        simp [convertCylindricalTo3DCartesian, hax, hpat2]
      rw [hres]
      exact rfl

theorem C10_validate_then_mutate_witness :
    errStateD (restrictTo1Daxis demoObj3 "q") demoObj3 = demoObj3 ∧
    errStateD (convertCylindricalTo3DCartesian demoObj3) demoObj3 =
      demoObj3 :=
  C10_validate_then_mutate demoObj3 "q" (by decide)

/-! ## Remaining witnesses -/

theorem C4_mirror_amended_witness :
    (buildAxis mirrorGrid ⟨[]⟩ 0).isOk = true := by
  obtain ⟨o2, hok, _⟩ := C4_mirror_amended mirrorGrid ⟨[]⟩ 0 1 1 0 (1 * 1)
    (1 * 1 + 0 * (1 * 1)) (1 * 1 + 0 * (1 * 1) + ((3 : ℚ) - 1) * (1 * 1)) 3
    (by decide) rfl (by decide) (by decide) (by decide) (by decide)
    (by decide) (by norm_num [mirrorGrid]) (by norm_num [mirrorGrid])
    (by norm_num [mirrorGrid])
  rw [hok]
  rfl

theorem C5_resolve_time_witness :
    okGetP (findOutput demoObjT (some 1) none) "_current_i" =
      some (.idx 1) := by
  obtain ⟨o2, i, hok, hci, _, _, _, hexact⟩ :=
    C5_resolve_time demoObjT [0, 1, 2] [0, 10, 20] 1 (by decide) (by decide)
      rfl rfl rfl rfl
  have hi1 : i = 1 := by
    apply hexact 1 (by decide) (by decide)
    intro k hk
    have hk0 : k = 0 := by omega
    subst hk0
    exact fun hgg => absurd (show (0 : ℚ) = 1 from hgg) (by decide)
  subst hi1
  rw [show okGetP (findOutput demoObjT (some 1) none) "_current_i" =
    getattr? o2 "_current_i" by rw [hok]; exact rfl]
  exact hci

theorem C6_resolve_iteration_witness :
    okGetP (findOutput demoObjT none (some 10)) "_current_i" =
      some (.idx 1) := by
  obtain ⟨hpres, _⟩ :=
    C6_resolve_iteration demoObjT [0, 1, 2] [0, 10, 20] 10 (by decide) rfl rfl
  obtain ⟨o2, i, hok, hci, hi, hval, hbef⟩ := hpres (by decide)
  have hi3 : i < 3 := by simpa using hi
  have hcase : i = 0 ∨ i = 1 ∨ i = 2 := by omega
  have hi1 : i = 1 := by
    rcases hcase with h | h | h
    · subst h
      exact absurd (show (0 : ℤ) = 10 from hval) (by decide)
    · exact h
    · subst h
      have h1 := hbef 1 (by omega)
      exact absurd rfl h1
  subst hi1
  rw [show okGetP (findOutput demoObjT none (some 10)) "_current_i" =
    getattr? o2 "_current_i" by rw [hok]; exact rfl]
  exact hci

end FieldMetaInfo
